import Mathlib

/-!
Verification of the server-authoritative 1v1 marble-soccer game room
(`game-room.actor.ts`): shallow embedding of its physics constants, wall
bounce, goal detection, phase state machine, input ingest and dash logic,
together with theorems settling the specification claims.

Numbers are embedded as exact rationals (`Rat`) and timestamps as integers
(milliseconds).  The two places where the source calls the irrational
primitives `Math.sqrt` and `Math.pow` are parametrised by a numeric
environment `NumEnv`; theorems that depend on the value of a square root
carry the defining hypotheses of the square root at the point of use.
-/

namespace MarbleSoccer

/-! ## Constants (from `types.ts`) -/

def FIELD_HALF_LENGTH : ℚ := 10

def FIELD_HALF_WIDTH : ℚ := 6

def WALL_RESTITUTION_BALL : ℚ := 8/10

def WALL_RESTITUTION_PLAYER : ℚ := 1/2

def GOAL_HALF_WIDTH : ℚ := 2

def GOAL_DEPTH : ℚ := 2

def BALL_RADIUS : ℚ := 3/10

def BALL_MASS : ℚ := 3/10

def BALL_MAX_SPEED : ℚ := 65/100

def BALL_DRAG : ℚ := 35/1000

def MARBLE_RADIUS : ℚ := 1/2

def MOVE_FORCE : ℚ := 4/100

def MAX_SPEED : ℚ := 45/100

def DRAG : ℚ := 35/1000

def GRAVITY : ℚ := -(2/100)

def GROUND_Y : ℚ := 1/2

def PUSH_FORCE : ℚ := 2/10

def INPUT_DEAD_ZONE : ℚ := 1/2

def DASH_FORCE_MULT : ℚ := 3/2

def DASH_DURATION : ℤ := 120

def DASH_COOLDOWN : ℤ := 3000

def GOALS_TO_WIN : ℤ := 5

def MATCH_TIME_LIMIT : ℤ := 180000

def GOLDEN_GOAL_HALF_WIDTH : ℚ := 5/2

def KICKOFF_FREEZE : ℤ := 1500

def GOAL_CELEBRATION : ℤ := 1400

def PRE_GAME_COUNTDOWN : ℤ := 3000

def MAX_PLAYERS : ℕ := 2

def SERVER_TICK_INTERVAL : ℤ := 16

/-! ## Data model (from `types.ts`) -/

/-- Vec3 from `types.ts`; coordinates are exact rationals. -/
structure Vec3 where
  x : ℚ
  y : ℚ
  z : ℚ
deriving DecidableEq, Repr

def vec3Zero : Vec3 := ⟨0, 0, 0⟩

/-- PlayerState from `types.ts`.  The `name` and `color` strings of the
source carry no behaviour and are omitted; `id` is modelled as a natural
number. -/
structure PlayerState where
  id : ℕ
  team : ℤ
  position : Vec3
  velocity : Vec3
deriving DecidableEq, Repr

/-- BallState from `types.ts`, with the player id of the last toucher. -/
structure BallState where
  position : Vec3
  velocity : Vec3
  lastTouchedBy : Option ℕ
deriving DecidableEq, Repr

/-- GamePhase from `types.ts`. -/
inductive GamePhase where
  | waiting
  | countdown
  | playing
  | goalScored
  | goldenGoal
  | finished
deriving DecidableEq, Repr

/-- PlayerInput from `types.ts` (the values stored per connection after
validation). -/
structure PlayerInput where
  tx : ℚ
  tz : ℚ
  active : Bool
  dash : Bool
deriving DecidableEq, Repr

/-- ConnState of `game-room.actor.ts` (the per-connection ephemeral state).
The `playerName` string is omitted. -/
structure ConnState where
  playerId : ℕ
  input : PlayerInput
  dashCooldownUntil : ℤ
  dashStartedAt : ℤ
  lastInputAt : ℤ
deriving DecidableEq, Repr

/-- GameRoomState from `types.ts`.  The player record is modelled as a list
in insertion order (string-keyed records preserve insertion order in the
source runtime); the `id`, `name`, `maxPlayers` and `createdAt` fields carry
no behaviour for the verified claims and are omitted. -/
structure GameRoomState where
  players : List PlayerState
  ball : BallState
  score1 : ℤ
  score2 : ℤ
  phase : GamePhase
  timeRemaining : ℤ
  phaseStartedAt : ℤ
deriving DecidableEq, Repr

/-- Full room: durable state plus the ephemeral per-connection states. -/
structure RoomSys where
  state : GameRoomState
  conns : List ConnState
deriving DecidableEq, Repr

/-- Broadcast events of the actor.  Only the payload fields the claims speak
about are kept (phase, time, scoring team, scorer, winner team, scores). -/
inductive Evt where
  | phaseChanged (phase : GamePhase) (timeRemaining : ℤ)
  | goalScoredEvt (scorer : Option ℕ) (teamScored : ℤ) (score1 score2 : ℤ)
  | gameOverEvt (winnerTeam : Option ℤ) (score1 score2 : ℤ)
  | playerJoined (pid : ℕ)
  | playerLeft (pid : ℕ)
deriving DecidableEq, Repr

/-- Numeric environment: the two irrational primitives the source calls,
`Math.sqrt` and `Math.pow`, as abstract rational-valued functions.  Theorems
that depend on the value of a square root carry its defining hypotheses
(`sqrtQ s * sqrtQ s = s`, `0 < sqrtQ s`) at the point of use. -/
structure NumEnv where
  sqrtQ : ℚ → ℚ
  powQ : ℚ → ℚ → ℚ

/-! ## Helpers (from `game-room.actor.ts`) -/

/-- createBall: ball re-created at field center with zero velocity. -/
def createBall : BallState := ⟨⟨0, GROUND_Y, 0⟩, vec3Zero, none⟩

/-- kickoffPositions: the two kickoff slots. -/
def kickoffPositions : Vec3 × Vec3 := (⟨0, GROUND_Y, -7⟩, ⟨0, GROUND_Y, 7⟩)

/-- resetForKickoff: reposition every player at the kickoff slot of its team,
zero its velocity, and recreate the ball. -/
def resetForKickoff (s : GameRoomState) : GameRoomState :=
  { s with
    players := s.players.map (fun p =>
      { p with
        position := if p.team = 1 then kickoffPositions.1 else kickoffPositions.2,
        velocity := vec3Zero }),
    ball := createBall }

/-! ## Wall bounce (from `game-room.actor.ts`, `wallBounce`)

The source computes `absZ`, `absX` and `inGoalPocket` once from the entry
position and then runs five sequential clamp blocks that mutate `pos.x`,
`pos.z`, `vel.x`, `vel.z` in place.  The embedding passes the entry position
`p0` explicitly to each block so that conditions read the same values as the
source: `absX`/`absZ` always refer to `p0`, while the clamped coordinate is
read from the current entity. -/

/-- Position and velocity of one entity, as mutated by the physics passes. -/
structure Ent where
  position : Vec3
  velocity : Vec3
deriving DecidableEq, Repr

/-- Write the x coordinate and reflect the x velocity by the restitution. -/
def setX (e : Ent) (xv rest : ℚ) : Ent :=
  ⟨⟨xv, e.position.y, e.position.z⟩,
   ⟨e.velocity.x * (-rest), e.velocity.y, e.velocity.z⟩⟩

/-- Write the z coordinate and reflect the z velocity by the restitution. -/
def setZ (e : Ent) (zv rest : ℚ) : Ent :=
  ⟨⟨e.position.x, e.position.y, zv⟩,
   ⟨e.velocity.x, e.velocity.y, e.velocity.z * (-rest)⟩⟩

/-- inGoalPocket: behind an end wall and laterally inside the goal mouth. -/
def wbPocket (ghw : ℚ) (p0 : Vec3) : Prop :=
  |p0.z| > FIELD_HALF_LENGTH ∧ |p0.x| < ghw

instance (ghw : ℚ) (p0 : Vec3) : Decidable (wbPocket ghw p0) := by
  unfold wbPocket; infer_instance

/-- Side walls (X axis): clamp to the pocket width inside a goal pocket,
otherwise to the field width. -/
def wbSide (r rest ghw : ℚ) (p0 : Vec3) (e : Ent) : Ent :=
  if e.position.x > (if wbPocket ghw p0 then ghw else FIELD_HALF_WIDTH) - r then
    setX e ((if wbPocket ghw p0 then ghw else FIELD_HALF_WIDTH) - r) rest
  else if e.position.x < -((if wbPocket ghw p0 then ghw else FIELD_HALF_WIDTH) - r) then
    setX e (-((if wbPocket ghw p0 then ghw else FIELD_HALF_WIDTH) - r)) rest
  else e

/-- Goal-post inner edges: prevent lateral escape at the goal line boundary. -/
def wbPost (r rest ghw : ℚ) (p0 : Vec3) (e : Ent) : Ent :=
  if |p0.z| > FIELD_HALF_LENGTH - r ∧ |p0.z| ≤ FIELD_HALF_LENGTH + GOAL_DEPTH ∧
      ¬ wbPocket ghw p0 ∧ |p0.x| < ghw + r ∧ |p0.x| ≥ ghw - r then
    setX e (if e.position.x > 0 then ghw - r else -(ghw - r)) rest
  else e

/-- Back wall of the +Z goal pocket. -/
def wbBackPos (r rest ghw : ℚ) (p0 : Vec3) (e : Ent) : Ent :=
  if e.position.z > FIELD_HALF_LENGTH + GOAL_DEPTH - r ∧ |p0.x| < ghw then
    setZ e (FIELD_HALF_LENGTH + GOAL_DEPTH - r) rest
  else e

/-- Back wall of the -Z goal pocket. -/
def wbBackNeg (r rest ghw : ℚ) (p0 : Vec3) (e : Ent) : Ent :=
  if e.position.z < -(FIELD_HALF_LENGTH + GOAL_DEPTH - r) ∧ |p0.x| < ghw then
    setZ e (-(FIELD_HALF_LENGTH + GOAL_DEPTH - r)) rest
  else e

/-- Solid +Z end wall, except across the goal opening. -/
def wbEndPos (r rest ghw : ℚ) (p0 : Vec3) (e : Ent) : Ent :=
  if e.position.z > FIELD_HALF_LENGTH - r ∧ |p0.x| ≥ ghw - r then
    setZ e (FIELD_HALF_LENGTH - r) rest
  else e

/-- Solid -Z end wall, except across the goal opening. -/
def wbEndNeg (r rest ghw : ℚ) (p0 : Vec3) (e : Ent) : Ent :=
  if e.position.z < -(FIELD_HALF_LENGTH - r) ∧ |p0.x| ≥ ghw - r then
    setZ e (-(FIELD_HALF_LENGTH - r)) rest
  else e

/-- wallBounce: the boundary-resolution pass, all five clamp blocks in the
order of the source. -/
def wallBounce (r rest ghw : ℚ) (e : Ent) : Ent :=
  wbEndNeg r rest ghw e.position
    (wbEndPos r rest ghw e.position
      (wbBackNeg r rest ghw e.position
        (wbBackPos r rest ghw e.position
          (wbPost r rest ghw e.position
            (wbSide r rest ghw e.position e)))))

/-! ## Goal detection (from `game-room.actor.ts`, `checkGoal`) -/

/-- checkGoal: when the ball is laterally inside the active goal mouth and
beyond an end wall plus its radius, credit the goal, bump the score of the
scoring team, and enter the `goalScored` phase.  The source encodes the
scoring team as `1 | 2 | null`; `null` is modelled as `0`. -/
def checkGoal (s : GameRoomState) (goalHW : ℚ) (now : ℤ) : GameRoomState × List Evt :=
  if |s.ball.position.x| ≥ goalHW then (s, [])
  else
    let teamScored : ℤ :=
      if s.ball.position.z > FIELD_HALF_LENGTH + BALL_RADIUS then 1
      else if s.ball.position.z < -(FIELD_HALF_LENGTH + BALL_RADIUS) then 2
      else 0
    if teamScored = 0 then (s, [])
    else
      let s1 :=
        if teamScored = 1 then
          { s with score1 := s.score1 + 1, phase := GamePhase.goalScored, phaseStartedAt := now }
        else
          { s with score2 := s.score2 + 1, phase := GamePhase.goalScored, phaseStartedAt := now }
      (s1, [Evt.goalScoredEvt s.ball.lastTouchedBy teamScored s1.score1 s1.score2,
            Evt.phaseChanged GamePhase.goalScored s.timeRemaining])

/-! ## Phase management (from `game-room.actor.ts`, `phaseTick`) -/

/-- phaseTick: the lifecycle state machine, advanced once per tick with the
current wall-clock time and the elapsed milliseconds of this tick. -/
def phaseTick (s : GameRoomState) (now dtMs : ℤ) : GameRoomState × List Evt :=
  let elapsed := now - s.phaseStartedAt
  match s.phase with
  | GamePhase.countdown =>
    if elapsed ≥ PRE_GAME_COUNTDOWN then
      ({ s with phase := GamePhase.playing, phaseStartedAt := now },
       [Evt.phaseChanged GamePhase.playing s.timeRemaining])
    else (s, [])
  | GamePhase.goalScored =>
    if elapsed ≥ GOAL_CELEBRATION + KICKOFF_FREEZE then
      if s.score1 ≥ GOALS_TO_WIN ∨ s.score2 ≥ GOALS_TO_WIN then
        let winnerTeam : ℤ := if s.score1 ≥ GOALS_TO_WIN then 1 else 2
        ({ s with phase := GamePhase.finished },
         [Evt.gameOverEvt (some winnerTeam) s.score1 s.score2,
          Evt.phaseChanged GamePhase.finished s.timeRemaining])
      else
        ({ resetForKickoff s with phase := GamePhase.playing, phaseStartedAt := now },
         [Evt.phaseChanged GamePhase.playing s.timeRemaining])
    else (s, [])
  | GamePhase.playing =>
    let t := s.timeRemaining - dtMs
    if t ≤ 0 then
      if s.score1 = s.score2 then
        ({ s with timeRemaining := 0, phase := GamePhase.goldenGoal, phaseStartedAt := now },
         [Evt.phaseChanged GamePhase.goldenGoal 0])
      else
        let winnerTeam : ℤ := if s.score1 > s.score2 then 1 else 2
        ({ s with timeRemaining := 0, phase := GamePhase.finished },
         [Evt.gameOverEvt (some winnerTeam) s.score1 s.score2,
          Evt.phaseChanged GamePhase.finished 0])
    else ({ s with timeRemaining := t }, [])
  | _ => (s, [])

/-- loopDt: the elapsed milliseconds the run loop hands to a tick, the wall
clock delta capped at 50 ms. -/
def loopDt (now lastTickTime : ℤ) : ℤ := min (now - lastTickTime) 50

/-! ## Input ingest (from `game-room.actor.ts`, action `sendInput`) -/

/-- Value of `Number(x)` on a client-supplied coordinate: either a finite
number or a non-finite one (NaN or an infinity). -/
inductive JsNum where
  | finite (q : ℚ)
  | nonFinite
deriving DecidableEq, Repr

/-- Raw client movement payload before validation. -/
structure RawInput where
  tx : JsNum
  tz : JsNum
  active : Bool
  dash : Bool
deriving DecidableEq, Repr

/-- sendInput: rate-limit to one accepted attempt per 30 ms, reject
non-finite coordinates, clamp accepted coordinates to the super-region
around the field, and store the flags as booleans.  Note the source updates
`lastInputAt` before the finiteness check. -/
def sendInput (cs : ConnState) (inp : RawInput) (now : ℤ) : ConnState :=
  if now - cs.lastInputAt < 30 then cs
  else
    let cs1 := { cs with lastInputAt := now }
    match inp.tx, inp.tz with
    | JsNum.finite tx, JsNum.finite tz =>
      let maxX := FIELD_HALF_WIDTH + GOAL_DEPTH + 5
      let maxZ := FIELD_HALF_LENGTH + GOAL_DEPTH + 5
      { cs1 with
        input :=
          { tx := max (-maxX) (min maxX tx),
            tz := max (-maxZ) (min maxZ tz),
            active := inp.active,
            dash := inp.dash } }
    | _, _ => cs1

/-! ## Dash handling (from `game-room.actor.ts`, `physicsTick` pass 1) -/

/-- dashActivates: the stored request fires on this tick, namely the flag is
set and the cooldown has elapsed. -/
def dashActivates (cs : ConnState) (now : ℤ) : Prop :=
  cs.input.dash = true ∧ cs.dashCooldownUntil ≤ now

instance (cs : ConnState) (now : ℤ) : Decidable (dashActivates cs now) := by
  unfold dashActivates; infer_instance

/-- dashUpdate: the dash-activation fragment of physics pass 1.  On
activation the start time and cooldown are written and the stored flag is
consumed (cleared); otherwise nothing changes. -/
def dashUpdate (cs : ConnState) (now : ℤ) : ConnState :=
  if dashActivates cs now then
    { cs with
      dashStartedAt := now,
      dashCooldownUntil := now + DASH_COOLDOWN,
      input := { cs.input with dash := false } }
  else cs

/-- forceMultAt: the force multiplier of physics pass 1, the dash multiplier
exactly while the dash window is active. -/
def forceMultAt (cs : ConnState) (now : ℤ) : ℚ :=
  if now - cs.dashStartedAt < DASH_DURATION then DASH_FORCE_MULT else 1

/-- Events a single connection sees between physics ticks: a physics tick at
a given wall-clock time, or a received movement payload. -/
inductive ConnEvt where
  | tickNow (now : ℤ)
  | recvInput (inp : RawInput) (now : ℤ)

/-- connStep: effect of one connection event on the connection state. -/
def connStep (cs : ConnState) (ev : ConnEvt) : ConnState :=
  match ev with
  | ConnEvt.tickNow now => dashUpdate cs now
  | ConnEvt.recvInput inp now => sendInput cs inp now

/-! ## Collision resolution (from `game-room.actor.ts`) -/

/-- resolveCollision: symmetric elastic push between two equal-mass circular
entities, as in the source (the masses of the two players are both 1).
`0.000001` is the near-zero skip threshold and `0.3` the base-push factor. -/
def resolveCollision (env : NumEnv) (a b : Ent) (rA rB pushForce : ℚ) : Ent × Ent :=
  let dx := b.position.x - a.position.x
  let dz := b.position.z - a.position.z
  let distSq := dx * dx + dz * dz
  let minDist := rA + rB
  if distSq ≥ minDist * minDist ∨ distSq < 1/1000000 then (a, b)
  else
    let dist := env.sqrtQ distSq
    let nx := dx / dist
    let nz := dz / dist
    let overlap := (minDist - dist) / 2
    let aPos : Vec3 := ⟨a.position.x - nx * overlap, a.position.y, a.position.z - nz * overlap⟩
    let bPos : Vec3 := ⟨b.position.x + nx * overlap, b.position.y, b.position.z + nz * overlap⟩
    let relVx := a.velocity.x - b.velocity.x
    let relVz := a.velocity.z - b.velocity.z
    let relDot := relVx * nx + relVz * nz
    let aV1 : Vec3 :=
      if relDot > 0 then
        ⟨a.velocity.x - nx * relDot * pushForce, a.velocity.y, a.velocity.z - nz * relDot * pushForce⟩
      else a.velocity
    let bV1 : Vec3 :=
      if relDot > 0 then
        ⟨b.velocity.x + nx * relDot * pushForce, b.velocity.y, b.velocity.z + nz * relDot * pushForce⟩
      else b.velocity
    let basePush := pushForce * (3/10)
    (⟨aPos, ⟨aV1.x - nx * basePush, aV1.y, aV1.z - nz * basePush⟩⟩,
     ⟨bPos, ⟨bV1.x + nx * basePush, bV1.y, bV1.z + nz * basePush⟩⟩)

/-- ballPlayerCollide: physics pass 3 for one player against the ball.
Positional correction is split inversely by mass (player mass 1, ball mass
`BALL_MASS`), the impulse is distributed by the same mass ratio when the
relative velocity is closing, and the player becomes the last toucher on
every contact. -/
def ballPlayerCollide (env : NumEnv) (player : PlayerState) (ball : BallState) :
    PlayerState × BallState :=
  let dx := ball.position.x - player.position.x
  let dz := ball.position.z - player.position.z
  let distSq := dx * dx + dz * dz
  let minDist := MARBLE_RADIUS + BALL_RADIUS
  if distSq ≥ minDist * minDist ∨ distSq < 1/1000000 then (player, ball)
  else
    let dist := env.sqrtQ distSq
    let nx := dx / dist
    let nz := dz / dist
    let overlap := minDist - dist
    let totalMass := 1 + BALL_MASS
    let playerPush := overlap * (BALL_MASS / totalMass)
    let ballPush := overlap * (1 / totalMass)
    let pPos : Vec3 :=
      ⟨player.position.x - nx * playerPush, player.position.y, player.position.z - nz * playerPush⟩
    let bPos : Vec3 :=
      ⟨ball.position.x + nx * ballPush, ball.position.y, ball.position.z + nz * ballPush⟩
    let relVx := player.velocity.x - ball.velocity.x
    let relVz := player.velocity.z - ball.velocity.z
    let relDot := relVx * nx + relVz * nz
    let pVel : Vec3 :=
      if relDot > 0 then
        let jPlayer := (2 * BALL_MASS / totalMass) * relDot
        ⟨player.velocity.x - nx * jPlayer, player.velocity.y, player.velocity.z - nz * jPlayer⟩
      else player.velocity
    let bVel : Vec3 :=
      if relDot > 0 then
        let jBall := (2 * 1 / totalMass) * relDot
        ⟨ball.velocity.x + nx * jBall, ball.velocity.y, ball.velocity.z + nz * jBall⟩
      else ball.velocity
    ({ player with position := pPos, velocity := pVel },
     { ball with position := bPos, velocity := bVel, lastTouchedBy := some player.id })

/-! ## Drag, integration and the physics tick (from `game-room.actor.ts`) -/

/-- clampSpeed from `types.ts`: scale the horizontal velocity down to the
maximum when its magnitude exceeds it. -/
def clampSpeed (sq : ℚ → ℚ) (v : Vec3) (maxS : ℚ) : Vec3 :=
  let speed := sq (v.x * v.x + v.z * v.z)
  if speed > maxS then ⟨v.x * (maxS / speed), v.y, v.z * (maxS / speed)⟩ else v

/-- Physics pass 4 for one entity: exponential drag raised to the time
scale, horizontal speed clamp, gravity, integration, and ground clamp. -/
def dragIntegrate (env : NumEnv) (dt drag maxS : ℚ) (e : Ent) : Ent :=
  let df := env.powQ (1 - drag) dt
  let v1 : Vec3 := ⟨e.velocity.x * df, e.velocity.y, e.velocity.z * df⟩
  let v2 := clampSpeed env.sqrtQ v1 maxS
  let v3 : Vec3 := ⟨v2.x, v2.y + GRAVITY * dt, v2.z⟩
  let p1 : Vec3 :=
    ⟨e.position.x + v3.x * dt, e.position.y + v3.y * dt, e.position.z + v3.z * dt⟩
  if p1.y ≤ GROUND_Y then ⟨⟨p1.x, GROUND_Y, p1.z⟩, ⟨v3.x, 0, v3.z⟩⟩ else ⟨p1, v3⟩

def entOfPlayer (p : PlayerState) : Ent := ⟨p.position, p.velocity⟩

def setEnt (p : PlayerState) (e : Ent) : PlayerState :=
  { p with position := e.position, velocity := e.velocity }

/-- Update the player with the given id in place. -/
def updatePlayer (ps : List PlayerState) (pid : ℕ) (f : PlayerState → PlayerState) :
    List PlayerState :=
  ps.map (fun p => if p.id = pid then f p else p)

/-- Physics pass 1 for one connection: dash activation, then the movement
force toward the stored target when the connection is actively pressing and
the target is outside the dead zone. -/
def forceConn (env : NumEnv) (dt : ℚ) (now : ℤ) (acc : List PlayerState × List ConnState)
    (cs : ConnState) : List PlayerState × List ConnState :=
  match acc.1.find? (fun p => p.id == cs.playerId) with
  | none => (acc.1, acc.2 ++ [cs])
  | some player =>
    let cs1 := dashUpdate cs now
    let ps1 :=
      if cs1.input.active then
        let dx := cs1.input.tx - player.position.x
        let dz := cs1.input.tz - player.position.z
        let dist := env.sqrtQ (dx * dx + dz * dz)
        if dist > INPUT_DEAD_ZONE then
          let nx := dx / dist
          let nz := dz / dist
          let strength := min (dist / 8) 1 * MOVE_FORCE * forceMultAt cs1 now * dt
          updatePlayer acc.1 cs.playerId (fun p =>
            { p with velocity :=
              ⟨p.velocity.x + nx * strength, p.velocity.y, p.velocity.z + nz * strength⟩ })
        else acc.1
      else acc.1
    (ps1, acc.2 ++ [cs1])

/-- Physics pass 1 over all connections, in connection order. -/
def applyForces (env : NumEnv) (conns : List ConnState) (ps : List PlayerState)
    (dt : ℚ) (now : ℤ) : List PlayerState × List ConnState :=
  conns.foldl (forceConn env dt now) (ps, [])

/-- Index pairs `(i, j)` with `i < j < n`, in the loop order of the source. -/
def allPairs (n : ℕ) : List (ℕ × ℕ) :=
  (List.range n).flatMap (fun i => ((List.range n).drop (i + 1)).map (fun j => (i, j)))

/-- Physics pass 2 for one index pair: resolve the collision of players `i`
and `j` and write both back. -/
def pairStep (env : NumEnv) (ps : List PlayerState) (ij : ℕ × ℕ) : List PlayerState :=
  match ps.get? ij.1, ps.get? ij.2 with
  | some a, some b =>
    let r := resolveCollision env (entOfPlayer a) (entOfPlayer b)
      MARBLE_RADIUS MARBLE_RADIUS PUSH_FORCE
    (ps.set ij.1 (setEnt a r.1)).set ij.2 (setEnt b r.2)
  | _, _ => ps

/-- Physics pass 3 over all players in order, threading the ball. -/
def ballPass (env : NumEnv) (ps : List PlayerState) (ball : BallState) :
    List PlayerState × BallState :=
  (List.range ps.length).foldl
    (fun acc i =>
      match acc.1.get? i with
      | some player =>
        let r := ballPlayerCollide env player acc.2
        (acc.1.set i r.1, r.2)
      | none => acc)
    (ps, ball)

/-- Active goal half-width: widened during the golden-goal phase. -/
def physicsGoalHW (s : GameRoomState) : ℚ :=
  if s.phase = GamePhase.goldenGoal then GOLDEN_GOAL_HALF_WIDTH else GOAL_HALF_WIDTH

/-- Passes 1 to 5 of physicsTick: forces and dash, player-player collision,
ball-player collision, drag and integration, and wall bounce; returns the
room state after kinematics together with the updated connection states. -/
def physicsKinematics (env : NumEnv) (sys : RoomSys) (dt : ℚ) (now : ℤ) :
    GameRoomState × List ConnState :=
  let s := sys.state
  let goalHW := physicsGoalHW s
  let fc := applyForces env sys.conns s.players dt now
  let players2 := (allPairs fc.1.length).foldl (pairStep env) fc.1
  let bp := ballPass env players2 s.ball
  let players4 := bp.1.map (fun p => setEnt p (dragIntegrate env dt DRAG MAX_SPEED (entOfPlayer p)))
  let ballE := dragIntegrate env dt BALL_DRAG BALL_MAX_SPEED ⟨bp.2.position, bp.2.velocity⟩
  let players5 := players4.map (fun p =>
    setEnt p (wallBounce MARBLE_RADIUS WALL_RESTITUTION_PLAYER goalHW (entOfPlayer p)))
  let ballE2 := wallBounce BALL_RADIUS WALL_RESTITUTION_BALL goalHW ballE
  let ball5 : BallState :=
    { bp.2 with position := ballE2.position, velocity := ballE2.velocity }
  ({ s with players := players5, ball := ball5 }, fc.2)

/-- physicsTick: the six ordered passes of the source, returning the updated
room and the events broadcast by goal detection. -/
def physicsTick (env : NumEnv) (sys : RoomSys) (dt : ℚ) (now : ℤ) : RoomSys × List Evt :=
  let s := sys.state
  if s.players.length = 0 then (sys, [])
  else
    let k := physicsKinematics env sys dt now
    if s.phase ≠ GamePhase.waiting then
      let cg := checkGoal k.1 (physicsGoalHW s) now
      (⟨cg.1, k.2⟩, cg.2)
    else (⟨k.1, k.2⟩, [])

/-! ## Connection lifecycle (from `game-room.actor.ts`) -/

/-- onConnect: admit a connection (capacity is re-checked and the connection
closed with no state change when full), assign the team by join order, spawn
at the kickoff slot, and on the second player in the waiting phase reset
scores, clock, positions and ball and enter the countdown. -/
def onConnect (sys : RoomSys) (pid : ℕ) (now : ℤ) : RoomSys × List Evt :=
  let s := sys.state
  if s.players.length ≥ MAX_PLAYERS then (sys, [])
  else
    let team : ℤ := if s.players.length = 0 then 1 else 2
    let player : PlayerState :=
      { id := pid, team := team,
        position := if team = 1 then kickoffPositions.1 else kickoffPositions.2,
        velocity := vec3Zero }
    let s1 := { s with players := s.players ++ [player] }
    let cs : ConnState :=
      { playerId := pid, input := ⟨0, 0, false, false⟩,
        dashCooldownUntil := 0, dashStartedAt := 0, lastInputAt := 0 }
    if s1.players.length = 2 ∧ s1.phase = GamePhase.waiting then
      let s2 := resetForKickoff
        { s1 with phase := GamePhase.countdown, phaseStartedAt := now,
                  timeRemaining := MATCH_TIME_LIMIT, score1 := 0, score2 := 0 }
      (⟨s2, sys.conns ++ [cs]⟩,
       [Evt.playerJoined pid, Evt.phaseChanged GamePhase.countdown MATCH_TIME_LIMIT])
    else (⟨s1, sys.conns ++ [cs]⟩, [Evt.playerJoined pid])

/-- onDisconnect: remove the player and its connection; if fewer than two
players remain mid-match, finish with forfeit semantics, the remaining
player (if any) winning. -/
def onDisconnect (sys : RoomSys) (pid : ℕ) : RoomSys × List Evt :=
  let s := sys.state
  if (s.players.find? (fun p => p.id == pid)).isNone then (sys, [])
  else
    let remaining := s.players.filter (fun p => ¬ p.id = pid)
    let conns1 := sys.conns.filter (fun c => ¬ c.playerId = pid)
    let s1 := { s with players := remaining }
    if remaining.length < 2 ∧ s.phase ≠ GamePhase.waiting ∧ s.phase ≠ GamePhase.finished then
      let winner := remaining.head?
      (⟨{ s1 with phase := GamePhase.finished }, conns1⟩,
       [Evt.playerLeft pid,
        Evt.gameOverEvt (winner.map (fun p => p.team)) s.score1 s.score2,
        Evt.phaseChanged GamePhase.finished s.timeRemaining])
    else (⟨s1, conns1⟩, [Evt.playerLeft pid])

/-! ## The tick loop and the reachable-state transition system
(from `game-room.actor.ts`, `run`) -/

/-- roomTick: one iteration of the run loop after the delta computation:
advance the phase machine, then run physics when the phase is active
(waiting solo practice, playing, or golden goal). -/
def roomTick (env : NumEnv) (sys : RoomSys) (now dtMs : ℤ) : RoomSys × List Evt :=
  let dt : ℚ := (dtMs : ℚ) / (SERVER_TICK_INTERVAL : ℚ)
  let pt := phaseTick sys.state now dtMs
  let sys1 : RoomSys := ⟨pt.1, sys.conns⟩
  if pt.1.phase = GamePhase.waiting ∨ pt.1.phase = GamePhase.playing ∨
      pt.1.phase = GamePhase.goldenGoal then
    let ph := physicsTick env sys1 dt now
    (ph.1, pt.2 ++ ph.2)
  else (sys1, pt.2)

/-- Update the connection at a list index with a received payload. -/
def updateConnAt (l : List ConnState) (i : ℕ) (inp : RawInput) (now : ℤ) : List ConnState :=
  match l.get? i with
  | some c => l.set i (sendInput c inp now)
  | none => l

/-- External events that drive a room: a loop tick, a connection, a
disconnection, or a movement payload for one connection. -/
inductive SysEvent where
  | tickE (env : NumEnv) (now dtMs : ℤ)
  | connectE (pid : ℕ) (now : ℤ)
  | disconnectE (pid : ℕ)
  | inputE (i : ℕ) (inp : RawInput) (now : ℤ)

/-- applyEvent: the state portion of each event handler. -/
def applyEvent (sys : RoomSys) (ev : SysEvent) : RoomSys :=
  match ev with
  | SysEvent.tickE env now dtMs => (roomTick env sys now dtMs).1
  | SysEvent.connectE pid now => (onConnect sys pid now).1
  | SysEvent.disconnectE pid => (onDisconnect sys pid).1
  | SysEvent.inputE i inp now => ⟨sys.state, updateConnAt sys.conns i inp now⟩

/-- initialSys: `createState` of the actor, an empty waiting room. -/
def initialSys : RoomSys :=
  ⟨{ players := [], ball := createBall, score1 := 0, score2 := 0,
     phase := GamePhase.waiting, timeRemaining := MATCH_TIME_LIMIT, phaseStartedAt := 0 },
   []⟩

/-- Reachable: room states produced from the initial state by some sequence
of external events. -/
def Reachable (sys : RoomSys) : Prop :=
  ∃ evs : List SysEvent, sys = evs.foldl applyEvent initialSys

/-- Number of goal events in a broadcast batch. -/
def countGoals (evts : List Evt) : ℕ :=
  evts.countP (fun e => match e with | Evt.goalScoredEvt _ _ _ _ => true | _ => false)

/-! ## Concrete states used by counterexamples and witnesses -/

/-- Playing-phase state whose ball sits at `(0.5, y, 10.4)`, inside the +Z
goal mouth and beyond the +Z wall plus the ball radius; the two players are
at their kickoff slots, so team 2 (kickoff `z = +7`) defends the +Z end. -/
def c1State : GameRoomState :=
  { players := [⟨1, 1, kickoffPositions.1, vec3Zero⟩, ⟨2, 2, kickoffPositions.2, vec3Zero⟩],
    ball := ⟨⟨1/2, 1/2, 52/5⟩, vec3Zero, none⟩,
    score1 := 0, score2 := 0,
    phase := GamePhase.playing, timeRemaining := 60000, phaseStartedAt := 0 }

/-- Playing-phase state with 30 ms on the clock and scores 1 : 0. -/
def c2s : GameRoomState :=
  { players := [], ball := createBall, score1 := 1, score2 := 0,
    phase := GamePhase.playing, timeRemaining := 30, phaseStartedAt := 0 }

/-- Connection state with a pending dash request and an expired cooldown. -/
def c6cs : ConnState := ⟨0, ⟨0, 0, false, true⟩, 0, 0, 0⟩

/-- Movement payload that requests a dash. -/
def c6req : RawInput := ⟨JsNum.finite 0, JsNum.finite 0, false, true⟩

/-- Fresh connection state for the sendInput counterexample. -/
def c7cs : ConnState := ⟨0, ⟨0, 0, false, false⟩, 0, 0, 0⟩

/-- First accepted payload of the sendInput counterexample. -/
def c7A : RawInput := ⟨JsNum.finite 1, JsNum.finite 1, true, false⟩

/-- Non-finite payload of the sendInput counterexample. -/
def c7Bad : RawInput := ⟨JsNum.nonFinite, JsNum.finite 0, false, false⟩

/-- Second valid payload of the sendInput counterexample. -/
def c7B : RawInput := ⟨JsNum.finite 5, JsNum.finite 5, true, false⟩

/-! ## C1 — goal detection at the +Z boundary -/

/-- C1 counterexample: with the ball at `(0.5, y, 10.4)` during `playing`,
goal detection fires (phase becomes `goalScored` and a goal event with
scoring team 1 is broadcast) but the score of team 2 — the team defending
the +Z end, whose kickoff slot is `z = +7` — is left unchanged, while the
score of team 1 increments; so the goal is not credited to the team
defending the +Z end, refuting the claim as stated. -/
theorem c1_counterexample :
    (checkGoal c1State GOAL_HALF_WIDTH 5000).1.score2 = c1State.score2 ∧
    (checkGoal c1State GOAL_HALF_WIDTH 5000).1.score1 = c1State.score1 + 1 ∧
    (checkGoal c1State GOAL_HALF_WIDTH 5000).1.phase = GamePhase.goalScored ∧
    Evt.goalScoredEvt none 1 1 0 ∈ (checkGoal c1State GOAL_HALF_WIDTH 5000).2 := by
  have h1 : ¬ |c1State.ball.position.x| ≥ GOAL_HALF_WIDTH := by
    show ¬ |(1/2 : ℚ)| ≥ GOAL_HALF_WIDTH
    rw [abs_of_nonneg (by norm_num : (0:ℚ) ≤ 1/2)]
    norm_num [GOAL_HALF_WIDTH]
  have h2 : c1State.ball.position.z > FIELD_HALF_LENGTH + BALL_RADIUS := by
    show (52/5 : ℚ) > FIELD_HALF_LENGTH + BALL_RADIUS
    norm_num [FIELD_HALF_LENGTH, BALL_RADIUS]
  simp only [checkGoal]
  rw [if_neg h1, if_pos h2, if_neg (by norm_num : ¬ (1 : ℤ) = 0), if_pos rfl]
  exact ⟨rfl, rfl, rfl, List.Mem.head _⟩

/-- C1 (amended): with field half-length 10, goal half-width 2 and ball
radius 0.3, if during the playing phase the ball has `|x|` strictly inside
the goal half-width and `z > 10.3`, then goal detection credits the goal to
team 1 — the team defending the opposite (-Z) end — increments exactly that
score by one, and sets the phase to `goalScored`. -/
theorem c1_goal_plusZ (s : GameRoomState) (now : ℤ)
    (_hphase : s.phase = GamePhase.playing)
    (hx : |s.ball.position.x| < GOAL_HALF_WIDTH)
    (hz : s.ball.position.z > FIELD_HALF_LENGTH + BALL_RADIUS) :
    (checkGoal s GOAL_HALF_WIDTH now).1.score1 = s.score1 + 1 ∧
    (checkGoal s GOAL_HALF_WIDTH now).1.score2 = s.score2 ∧
    (checkGoal s GOAL_HALF_WIDTH now).1.phase = GamePhase.goalScored ∧
    Evt.goalScoredEvt s.ball.lastTouchedBy 1 (s.score1 + 1) s.score2 ∈
      (checkGoal s GOAL_HALF_WIDTH now).2 := by
  simp only [checkGoal]
  rw [if_neg (not_le.mpr hx), if_pos hz, if_neg (by norm_num : ¬ (1 : ℤ) = 0),
    if_pos rfl]
  exact ⟨rfl, rfl, rfl, List.Mem.head _⟩

/-- C1 amended-claim witness at the concrete counterexample state. -/
theorem c1_goal_plusZ_witness :
    (checkGoal c1State GOAL_HALF_WIDTH 5000).1.score1 = c1State.score1 + 1 ∧
    (checkGoal c1State GOAL_HALF_WIDTH 5000).1.score2 = c1State.score2 ∧
    (checkGoal c1State GOAL_HALF_WIDTH 5000).1.phase = GamePhase.goalScored ∧
    Evt.goalScoredEvt c1State.ball.lastTouchedBy 1 (c1State.score1 + 1) c1State.score2 ∈
      (checkGoal c1State GOAL_HALF_WIDTH 5000).2 :=
  c1_goal_plusZ c1State 5000 rfl
    (by
      show |(1/2 : ℚ)| < GOAL_HALF_WIDTH
      rw [abs_of_nonneg (by norm_num : (0:ℚ) ≤ 1/2)]
      norm_num [GOAL_HALF_WIDTH])
    (by
      show (52/5 : ℚ) > FIELD_HALF_LENGTH + BALL_RADIUS
      norm_num [FIELD_HALF_LENGTH, BALL_RADIUS])

/-! ## C2 — the playing-phase clock -/

/-- C2: while the phase is `playing`, a tick decrements the match clock by
the elapsed wall-clock milliseconds the run loop computed (equal to the raw
wall-clock delta whenever that delta is within the 50 ms cap); on reaching
zero the clock is pinned at zero and the phase becomes `goldenGoal` on a
tie, otherwise `finished` with a game-over event naming the higher-scoring
team as winner. -/
theorem c2_playing_clock (s : GameRoomState) (now dtMs : ℤ)
    (hp : s.phase = GamePhase.playing) :
    (∀ last : ℤ, 0 ≤ now - last → now - last ≤ 50 → loopDt now last = now - last) ∧
    (0 < s.timeRemaining - dtMs →
      (phaseTick s now dtMs).1.timeRemaining = s.timeRemaining - dtMs ∧
      (phaseTick s now dtMs).1.phase = GamePhase.playing) ∧
    (s.timeRemaining - dtMs ≤ 0 →
      (phaseTick s now dtMs).1.timeRemaining = 0 ∧
      (s.score1 = s.score2 → (phaseTick s now dtMs).1.phase = GamePhase.goldenGoal) ∧
      (s.score1 ≠ s.score2 →
        (phaseTick s now dtMs).1.phase = GamePhase.finished ∧
        ∃ w : ℤ, Evt.gameOverEvt (some w) s.score1 s.score2 ∈ (phaseTick s now dtMs).2 ∧
          ((s.score2 < s.score1 ∧ w = 1) ∨ (s.score1 < s.score2 ∧ w = 2)))) := by
  refine ⟨fun last h0 h50 => by unfold loopDt; omega, fun h => ?_, fun h => ?_⟩
  · simp only [phaseTick, hp]
    rw [if_neg (by omega : ¬ s.timeRemaining - dtMs ≤ 0)]
    exact ⟨rfl, rfl⟩
  · simp only [phaseTick, hp]
    rw [if_pos h]
    by_cases hsc : s.score1 = s.score2
    · rw [if_pos hsc]
      exact ⟨rfl, fun _ => rfl, fun hne => absurd hsc hne⟩
    · rw [if_neg hsc]
      refine ⟨rfl, fun hcon => absurd hcon hsc, fun _ => ⟨rfl, ?_⟩⟩
      refine ⟨if s.score1 > s.score2 then 1 else 2, List.mem_cons_self _ _, ?_⟩
      rcases lt_or_gt_of_ne hsc with hlt | hgt
      · exact Or.inr ⟨hlt, if_neg (by omega)⟩
      · exact Or.inl ⟨hgt, if_pos hgt⟩

/-- C2 witness: a playing state with 30 ms left, scores 1 : 0, ticked with a
40 ms delta, reaches zero, finishes, and names team 1 winner. -/
theorem c2_playing_clock_witness :
    (∀ last : ℤ, 0 ≤ 1000 - last → 1000 - last ≤ 50 → loopDt 1000 last = 1000 - last) ∧
    (0 < c2s.timeRemaining - 40 →
      (phaseTick c2s 1000 40).1.timeRemaining = c2s.timeRemaining - 40 ∧
      (phaseTick c2s 1000 40).1.phase = GamePhase.playing) ∧
    (c2s.timeRemaining - 40 ≤ 0 →
      (phaseTick c2s 1000 40).1.timeRemaining = 0 ∧
      (c2s.score1 = c2s.score2 → (phaseTick c2s 1000 40).1.phase = GamePhase.goldenGoal) ∧
      (c2s.score1 ≠ c2s.score2 →
        (phaseTick c2s 1000 40).1.phase = GamePhase.finished ∧
        ∃ w : ℤ, Evt.gameOverEvt (some w) c2s.score1 c2s.score2 ∈ (phaseTick c2s 1000 40).2 ∧
          ((c2s.score2 < c2s.score1 ∧ w = 1) ∨ (c2s.score1 < c2s.score2 ∧ w = 2)))) :=
  c2_playing_clock c2s 1000 40 rfl

/-! ## C6 — dash requests -/

/-- Helper: no event a connection sees ever decreases its dash cooldown
expiry; a tick either leaves it alone or, on activation, moves it forward to
`now + DASH_COOLDOWN` with `now` at least the old expiry, and sendInput
never touches it. -/
theorem dashCooldown_mono_step (cs : ConnState) (ev : ConnEvt) :
    cs.dashCooldownUntil ≤ (connStep cs ev).dashCooldownUntil := by
  cases ev with
  | tickNow now =>
    show cs.dashCooldownUntil ≤ (dashUpdate cs now).dashCooldownUntil
    unfold dashUpdate
    split_ifs with h
    · have h2 := h.2
      show cs.dashCooldownUntil ≤ now + DASH_COOLDOWN
      unfold DASH_COOLDOWN
      omega
    · exact le_refl _
  | recvInput inp now =>
    show cs.dashCooldownUntil ≤ (sendInput cs inp now).dashCooldownUntil
    unfold sendInput
    split_ifs with h
    · exact le_refl _
    · cases htx : inp.tx <;> cases htz : inp.tz <;> simp

/-- Helper: the dash cooldown expiry is monotone along any event trace. -/
theorem dashCooldown_mono_fold (evs : List ConnEvt) (cs : ConnState) :
    cs.dashCooldownUntil ≤ (evs.foldl connStep cs).dashCooldownUntil := by
  induction evs generalizing cs with
  | nil => exact le_refl _
  | cons e t ih => exact le_trans (dashCooldown_mono_step cs e) (ih _)

/-- C6: a stored dash request activates only when the cooldown has elapsed
and is cleared exactly on consumption (otherwise the tick changes nothing
and raises no error); along any trace of ticks and received payloads two
activations are separated by at least the cooldown; and the dash force
multiplier applies exactly while the time since the dash start is strictly
below the dash-active duration. -/
theorem c6_dash (cs : ConnState) (now : ℤ) :
    (dashActivates cs now →
      (dashUpdate cs now).input.dash = false ∧
      (dashUpdate cs now).dashStartedAt = now ∧
      (dashUpdate cs now).dashCooldownUntil = now + DASH_COOLDOWN) ∧
    (¬ dashActivates cs now → dashUpdate cs now = cs) ∧
    (∀ pre mid : List ConnEvt, ∀ t1 t2 : ℤ,
      dashActivates (pre.foldl connStep cs) t1 →
      dashActivates
        (mid.foldl connStep (connStep (pre.foldl connStep cs) (ConnEvt.tickNow t1))) t2 →
      t1 + DASH_COOLDOWN ≤ t2) ∧
    (forceMultAt cs now = DASH_FORCE_MULT ↔ now - cs.dashStartedAt < DASH_DURATION) := by
  refine ⟨fun h => ?_, fun h => ?_, fun pre mid t1 t2 h1 h2 => ?_, ?_⟩
  · unfold dashUpdate
    rw [if_pos h]
    exact ⟨rfl, rfl, rfl⟩
  · unfold dashUpdate
    rw [if_neg h]
  · have hstep :
        (connStep (pre.foldl connStep cs) (ConnEvt.tickNow t1)).dashCooldownUntil =
          t1 + DASH_COOLDOWN := by
      show (dashUpdate (pre.foldl connStep cs) t1).dashCooldownUntil = t1 + DASH_COOLDOWN
      unfold dashUpdate
      rw [if_pos h1]
    have hmono := dashCooldown_mono_fold mid (connStep (pre.foldl connStep cs) (ConnEvt.tickNow t1))
    rw [hstep] at hmono
    exact le_trans hmono h2.2
  · unfold forceMultAt
    by_cases hc : now - cs.dashStartedAt < DASH_DURATION
    · rw [if_pos hc]
      exact ⟨fun _ => hc, fun _ => rfl⟩
    · rw [if_neg hc]
      exact ⟨fun habs => absurd habs (by norm_num [DASH_FORCE_MULT]), fun hcon => absurd hcon hc⟩

/-- C6 witness: a pressed dash with expired cooldown activates at time 10
and clears the flag; a fresh request received at 3100 activates at 3200,
3190 ms after the first activation, within the trace machinery; and the
multiplier test holds at the initial state. -/
theorem c6_dash_witness :
    dashActivates c6cs 10 ∧
    ((dashUpdate c6cs 10).input.dash = false ∧
      (dashUpdate c6cs 10).dashStartedAt = 10 ∧
      (dashUpdate c6cs 10).dashCooldownUntil = 10 + DASH_COOLDOWN) ∧
    dashActivates (([] : List ConnEvt).foldl connStep c6cs) 10 ∧
    dashActivates
      (([ConnEvt.recvInput c6req 3100]).foldl connStep
        (connStep (([] : List ConnEvt).foldl connStep c6cs) (ConnEvt.tickNow 10))) 3200 ∧
    10 + DASH_COOLDOWN ≤ 3200 ∧
    (forceMultAt c6cs 10 = DASH_FORCE_MULT ↔ 10 - c6cs.dashStartedAt < DASH_DURATION) := by
  have h := c6_dash c6cs 10
  have ha : dashActivates c6cs 10 := by
    constructor
    · rfl
    · show (0 : ℤ) ≤ 10
      norm_num
  have hb :
      dashActivates
        (([ConnEvt.recvInput c6req 3100]).foldl connStep
          (connStep (([] : List ConnEvt).foldl connStep c6cs) (ConnEvt.tickNow 10))) 3200 := by
    constructor
    · rfl
    · show (10 + DASH_COOLDOWN : ℤ) ≤ 3200
      norm_num [DASH_COOLDOWN]
  exact ⟨ha, h.1 ha, ha, hb, h.2.2.1 [] [ConnEvt.recvInput c6req 3100] 10 3200 ha hb, h.2.2.2⟩

/-! ## C7 — sendInput validation and rate limiting -/

/-- C7 counterexample: after an accepted update at t = 100, a non-finite
payload at t = 140 passes the rate limiter (40 ms gap), leaves the stored
input unchanged, but still advances `lastInputAt`; a finite in-range payload
at t = 160 — 60 ms after the last accepted update — is then rejected by the
rate limiter, so the stored coordinates remain those of t = 100, refuting
the claim that a call 30 ms or more after the last accepted update with
finite coordinates is stored. -/
theorem c7_counterexample :
    (sendInput c7cs c7A 100).input.tx = 1 ∧
    (sendInput c7cs c7A 100).lastInputAt = 100 ∧
    (sendInput (sendInput c7cs c7A 100) c7Bad 140).input =
      (sendInput c7cs c7A 100).input ∧
    (30 : ℤ) ≤ 160 - (sendInput c7cs c7A 100).lastInputAt ∧
    (sendInput (sendInput (sendInput c7cs c7A 100) c7Bad 140) c7B 160).input.tx = 1 ∧
    ¬ (sendInput (sendInput (sendInput c7cs c7A 100) c7Bad 140) c7B 160).input.tx = 5 := by
  have hs1 : sendInput c7cs c7A 100 =
      { playerId := 0, input := ⟨1, 1, true, false⟩,
        dashCooldownUntil := 0, dashStartedAt := 0, lastInputAt := 100 } := by
    unfold sendInput c7cs c7A
    rw [if_neg (by norm_num : ¬ (100 : ℤ) - 0 < 30)]
    have htx : max (-(FIELD_HALF_WIDTH + GOAL_DEPTH + 5)) (min (FIELD_HALF_WIDTH + GOAL_DEPTH + 5) 1) = (1 : ℚ) := by
      norm_num [FIELD_HALF_WIDTH, GOAL_DEPTH]
    have htz : max (-(FIELD_HALF_LENGTH + GOAL_DEPTH + 5)) (min (FIELD_HALF_LENGTH + GOAL_DEPTH + 5) 1) = (1 : ℚ) := by
      norm_num [FIELD_HALF_LENGTH, GOAL_DEPTH]
    simp only [htx, htz]
  have hs2 : sendInput (sendInput c7cs c7A 100) c7Bad 140 =
      { playerId := 0, input := ⟨1, 1, true, false⟩,
        dashCooldownUntil := 0, dashStartedAt := 0, lastInputAt := 140 } := by
    rw [hs1]
    unfold sendInput c7Bad
    rw [if_neg (by norm_num : ¬ (140 : ℤ) - 100 < 30)]
  have hs3 : sendInput (sendInput (sendInput c7cs c7A 100) c7Bad 140) c7B 160 =
      { playerId := 0, input := ⟨1, 1, true, false⟩,
        dashCooldownUntil := 0, dashStartedAt := 0, lastInputAt := 140 } := by
    rw [hs2]
    unfold sendInput
    rw [if_pos (by norm_num : (160 : ℤ) - 140 < 30)]
  rw [hs3, hs2, hs1]
  refine ⟨rfl, rfl, rfl, by norm_num, rfl, ?_⟩
  norm_num

/-- C7 (amended): sendInput never raises an error; a call less than 30 ms
after the last attempt that passed the rate limiter (accepted or rejected
as non-finite — the source advances `lastInputAt` before the finiteness
check) changes nothing; past the rate limit, a non-finite coordinate leaves
the stored input unchanged while advancing `lastInputAt`; otherwise the
coordinates are stored clamped to the super-region around the field and the
flags are stored as booleans. -/
theorem c7_sendInput (cs : ConnState) (inp : RawInput) (now : ℤ) :
    (now - cs.lastInputAt < 30 → sendInput cs inp now = cs) ∧
    (30 ≤ now - cs.lastInputAt →
      ((∀ q : ℚ, inp.tx ≠ JsNum.finite q) ∨ (∀ q : ℚ, inp.tz ≠ JsNum.finite q)) →
      (sendInput cs inp now).input = cs.input ∧
      (sendInput cs inp now).lastInputAt = now) ∧
    (∀ tx tz : ℚ, 30 ≤ now - cs.lastInputAt →
      inp.tx = JsNum.finite tx → inp.tz = JsNum.finite tz →
      (sendInput cs inp now).input =
        ⟨max (-(FIELD_HALF_WIDTH + GOAL_DEPTH + 5)) (min (FIELD_HALF_WIDTH + GOAL_DEPTH + 5) tx),
         max (-(FIELD_HALF_LENGTH + GOAL_DEPTH + 5)) (min (FIELD_HALF_LENGTH + GOAL_DEPTH + 5) tz),
         inp.active, inp.dash⟩ ∧
      (sendInput cs inp now).lastInputAt = now) := by
  refine ⟨fun h => ?_, fun h hnf => ?_, fun tx tz h htx htz => ?_⟩
  · unfold sendInput
    rw [if_pos h]
  · unfold sendInput
    rw [if_neg (by omega : ¬ now - cs.lastInputAt < 30)]
    rcases hnf with hnf | hnf
    · cases hx : inp.tx with
      | finite q => exact absurd hx (hnf q)
      | nonFinite => cases hz : inp.tz <;> exact ⟨rfl, rfl⟩
    · cases hz : inp.tz with
      | finite q => exact absurd hz (hnf q)
      | nonFinite => cases hx : inp.tx <;> exact ⟨rfl, rfl⟩
  · unfold sendInput
    rw [if_neg (by omega : ¬ now - cs.lastInputAt < 30), htx, htz]
    exact ⟨rfl, rfl⟩

/-- C7 amended-claim witness: the rate-limited branch and the accepted
clamped branch, both at concrete inputs. -/
theorem c7_sendInput_witness :
    ((10 : ℤ) - c7cs.lastInputAt < 30 ∧ sendInput c7cs c7B 10 = c7cs) ∧
    ((30 : ℤ) ≤ 100 - c7cs.lastInputAt ∧
      (sendInput c7cs c7A 100).input =
        ⟨max (-(FIELD_HALF_WIDTH + GOAL_DEPTH + 5)) (min (FIELD_HALF_WIDTH + GOAL_DEPTH + 5) 1),
         max (-(FIELD_HALF_LENGTH + GOAL_DEPTH + 5)) (min (FIELD_HALF_LENGTH + GOAL_DEPTH + 5) 1),
         c7A.active, c7A.dash⟩ ∧
      (sendInput c7cs c7A 100).lastInputAt = 100) := by
  constructor
  · have h10 : (10 : ℤ) - c7cs.lastInputAt < 30 := by norm_num [c7cs]
    exact ⟨h10, (c7_sendInput c7cs c7B 10).1 h10⟩
  · have h100 : (30 : ℤ) ≤ 100 - c7cs.lastInputAt := by norm_num [c7cs]
    exact ⟨h100, (c7_sendInput c7cs c7A 100).2.2 1 1 h100 rfl rfl⟩

/-! ## C8 — waiting to countdown on the second connection -/

/-- C8: from an empty waiting room, the first connection leaves the phase at
`waiting` with one player present; the second connection enters `countdown`,
resets both scores to zero, restores the full match clock, puts both players
at their kickoff slots with zero velocity, and recreates the ball at field
center with zero velocity. -/
theorem c8_two_connections (sys : RoomSys) (p1 p2 : ℕ) (n1 n2 : ℤ)
    (hempty : sys.state.players = []) (hph : sys.state.phase = GamePhase.waiting) :
    (onConnect sys p1 n1).1.state.phase = GamePhase.waiting ∧
    (onConnect sys p1 n1).1.state.players.length = 1 ∧
    (onConnect (onConnect sys p1 n1).1 p2 n2).1.state.phase = GamePhase.countdown ∧
    (onConnect (onConnect sys p1 n1).1 p2 n2).1.state.score1 = 0 ∧
    (onConnect (onConnect sys p1 n1).1 p2 n2).1.state.score2 = 0 ∧
    (onConnect (onConnect sys p1 n1).1 p2 n2).1.state.timeRemaining = MATCH_TIME_LIMIT ∧
    (onConnect (onConnect sys p1 n1).1 p2 n2).1.state.players =
      [⟨p1, 1, kickoffPositions.1, vec3Zero⟩, ⟨p2, 2, kickoffPositions.2, vec3Zero⟩] ∧
    (onConnect (onConnect sys p1 n1).1 p2 n2).1.state.ball = createBall := by
  have h1 : (onConnect sys p1 n1).1 =
      ⟨{ sys.state with players := [⟨p1, 1, kickoffPositions.1, vec3Zero⟩] },
       sys.conns ++ [⟨p1, ⟨0, 0, false, false⟩, 0, 0, 0⟩]⟩ := by
    simp only [onConnect, hempty]
    norm_num [MAX_PLAYERS]
  rw [h1]
  refine ⟨hph, rfl, ?_⟩
  simp only [onConnect, resetForKickoff, List.map, hph]
  norm_num [MAX_PLAYERS]

/-- C8 witness at the initial room state. -/
theorem c8_two_connections_witness :
    (onConnect initialSys 7 0).1.state.phase = GamePhase.waiting ∧
    (onConnect initialSys 7 0).1.state.players.length = 1 ∧
    (onConnect (onConnect initialSys 7 0).1 9 50).1.state.phase = GamePhase.countdown ∧
    (onConnect (onConnect initialSys 7 0).1 9 50).1.state.score1 = 0 ∧
    (onConnect (onConnect initialSys 7 0).1 9 50).1.state.score2 = 0 ∧
    (onConnect (onConnect initialSys 7 0).1 9 50).1.state.timeRemaining = MATCH_TIME_LIMIT ∧
    (onConnect (onConnect initialSys 7 0).1 9 50).1.state.players =
      [⟨7, 1, kickoffPositions.1, vec3Zero⟩, ⟨9, 2, kickoffPositions.2, vec3Zero⟩] ∧
    (onConnect (onConnect initialSys 7 0).1 9 50).1.state.ball = createBall :=
  c8_two_connections initialSys 7 9 0 50 rfl rfl

/-! ## C3 and C5 — wall-bounce bounds and idempotence

Throughout, `r` is the entity radius and `ghw` the active goal half-width;
the hypotheses `0 < r`, `r < ghw`, `ghw + r ≤ FIELD_HALF_WIDTH` hold for
every entity and phase of the game (radii 0.3 and 0.5, half-widths 2 and
2.5, field half-width 6). -/

theorem setX_pos_x (e : Ent) (v rest : ℚ) : (setX e v rest).position.x = v := rfl

theorem setX_pos_z (e : Ent) (v rest : ℚ) : (setX e v rest).position.z = e.position.z := rfl

theorem setZ_pos_z (e : Ent) (v rest : ℚ) : (setZ e v rest).position.z = v := rfl

theorem setZ_pos_x (e : Ent) (v rest : ℚ) : (setZ e v rest).position.x = e.position.x := rfl

theorem wbSide_z (r rest ghw : ℚ) (p0 : Vec3) (e : Ent) :
    (wbSide r rest ghw p0 e).position.z = e.position.z := by
  unfold wbSide; split_ifs <;> rfl

theorem wbPost_z (r rest ghw : ℚ) (p0 : Vec3) (e : Ent) :
    (wbPost r rest ghw p0 e).position.z = e.position.z := by
  unfold wbPost; split_ifs <;> rfl

theorem wbBackPos_x (r rest ghw : ℚ) (p0 : Vec3) (e : Ent) :
    (wbBackPos r rest ghw p0 e).position.x = e.position.x := by
  unfold wbBackPos; split_ifs <;> rfl

theorem wbBackNeg_x (r rest ghw : ℚ) (p0 : Vec3) (e : Ent) :
    (wbBackNeg r rest ghw p0 e).position.x = e.position.x := by
  unfold wbBackNeg; split_ifs <;> rfl

theorem wbEndPos_x (r rest ghw : ℚ) (p0 : Vec3) (e : Ent) :
    (wbEndPos r rest ghw p0 e).position.x = e.position.x := by
  unfold wbEndPos; split_ifs <;> rfl

theorem wbEndNeg_x (r rest ghw : ℚ) (p0 : Vec3) (e : Ent) :
    (wbEndNeg r rest ghw p0 e).position.x = e.position.x := by
  unfold wbEndNeg; split_ifs <;> rfl

/-- Helper: the resolved x coordinate lies within the side walls. -/
theorem wb_x_bound (r rest ghw : ℚ) (h1 : 0 < r) (h2 : r < ghw)
    (h3 : ghw + r ≤ FIELD_HALF_WIDTH) (e : Ent) :
    |(wallBounce r rest ghw e).position.x| ≤ FIELD_HALF_WIDTH - r := by
  have hx4 : (wallBounce r rest ghw e).position.x
      = (wbPost r rest ghw e.position (wbSide r rest ghw e.position e)).position.x := by
    unfold wallBounce
    rw [wbEndNeg_x, wbEndPos_x, wbBackNeg_x, wbBackPos_x]
  rw [hx4]
  simp only [wbPost, wbSide, apply_ite (fun t : Ent => t.position.x), setX_pos_x,
    FIELD_HALF_WIDTH]
  simp only [FIELD_HALF_WIDTH] at h3
  split_ifs <;> (rw [abs_le]; constructor <;> linarith)

/-- Helper: the resolved z coordinate lies within the pocket back walls. -/
theorem wb_z_bound (r rest ghw : ℚ) (h1 : 0 < r) (h2 : r < ghw)
    (h3 : ghw + r ≤ FIELD_HALF_WIDTH) (e : Ent) :
    |(wallBounce r rest ghw e).position.z| ≤ FIELD_HALF_LENGTH + GOAL_DEPTH - r := by
  have hz2 : (wbPost r rest ghw e.position (wbSide r rest ghw e.position e)).position.z
      = e.position.z := by rw [wbPost_z, wbSide_z]
  simp only [FIELD_HALF_WIDTH] at h3
  simp only [wallBounce, wbEndNeg, wbEndPos, wbBackNeg, wbBackPos,
    apply_ite (fun t : Ent => t.position.z), setZ_pos_z, hz2,
    FIELD_HALF_LENGTH, GOAL_DEPTH]
  rcases lt_or_le (|e.position.x|) (ghw - r) with hR | hR
  · have hlt : |e.position.x| < ghw := by linarith
    have hge : ¬ (|e.position.x| ≥ ghw - r) := not_le.mpr hR
    simp only [iff_true_intro hlt, iff_false_intro hge, and_true, and_false, if_false]
    split_ifs <;> (rw [abs_le]; constructor <;> linarith)
  · have hge : |e.position.x| ≥ ghw - r := hR
    rcases lt_or_le (|e.position.x|) ghw with hlt | hge2
    · simp only [iff_true_intro hlt, iff_true_intro hge, and_true]
      split_ifs <;> (rw [abs_le]; constructor <;> linarith)
    · have hnlt : ¬ (|e.position.x| < ghw) := not_lt.mpr hge2
      simp only [iff_false_intro hnlt, iff_true_intro hge, and_true, and_false, if_false]
      split_ifs <;> (rw [abs_le]; constructor <;> linarith)

/-- Helper: when the original lateral position is at least `ghw - r` in
magnitude, the end walls confine the resolved z to the field proper. -/
theorem wb_z_tight (r rest ghw : ℚ) (h1 : 0 < r) (h2 : r < ghw)
    (h3 : ghw + r ≤ FIELD_HALF_WIDTH) (e : Ent)
    (hR : ghw - r ≤ |e.position.x|) :
    |(wallBounce r rest ghw e).position.z| ≤ FIELD_HALF_LENGTH - r := by
  have hz2 : (wbPost r rest ghw e.position (wbSide r rest ghw e.position e)).position.z
      = e.position.z := by rw [wbPost_z, wbSide_z]
  simp only [FIELD_HALF_WIDTH] at h3
  simp only [wallBounce, wbEndNeg, wbEndPos, wbBackNeg, wbBackPos,
    apply_ite (fun t : Ent => t.position.z), setZ_pos_z, hz2,
    FIELD_HALF_LENGTH, GOAL_DEPTH]
  have hge : |e.position.x| ≥ ghw - r := hR
  rcases lt_or_le (|e.position.x|) ghw with hlt | hge2
  · simp only [iff_true_intro hlt, iff_true_intro hge, and_true]
    split_ifs <;> (rw [abs_le]; constructor <;> linarith)
  · have hnlt : ¬ (|e.position.x| < ghw) := not_lt.mpr hge2
    simp only [iff_false_intro hnlt, iff_true_intro hge, and_true, and_false, if_false]
    split_ifs <;> (rw [abs_le]; constructor <;> linarith)

/-- Helper: a resolved z beyond the end walls forces the original (and
resolved) lateral position to be strictly inside the goal opening, and the
x coordinate through the pass to be untouched. -/
theorem wb_z_x (r rest ghw : ℚ) (h1 : 0 < r) (h2 : r < ghw)
    (h3 : ghw + r ≤ FIELD_HALF_WIDTH) (e : Ent) :
    FIELD_HALF_LENGTH - r < |(wallBounce r rest ghw e).position.z| →
    |(wallBounce r rest ghw e).position.x| < ghw - r := by
  rcases lt_or_le (|e.position.x|) (ghw - r) with hR | hR
  · intro _
    have hxeq : (wallBounce r rest ghw e).position.x = e.position.x := by
      have hx4 : (wallBounce r rest ghw e).position.x
          = (wbPost r rest ghw e.position (wbSide r rest ghw e.position e)).position.x := by
        unfold wallBounce
        rw [wbEndNeg_x, wbEndPos_x, wbBackNeg_x, wbBackPos_x]
      rw [hx4]
      have hside : wbSide r rest ghw e.position e = e := by
        unfold wbSide
        by_cases hp : wbPocket ghw e.position
        · simp only [if_pos hp]
          rw [if_neg (by
              have := le_abs_self e.position.x
              push_neg
              linarith),
            if_neg (by
              have := neg_abs_le e.position.x
              push_neg
              linarith)]
        · simp only [if_neg hp]
          rw [if_neg (by
              have := le_abs_self e.position.x
              push_neg
              simp only [FIELD_HALF_WIDTH] at h3 ⊢
              linarith),
            if_neg (by
              have := neg_abs_le e.position.x
              push_neg
              simp only [FIELD_HALF_WIDTH] at h3 ⊢
              linarith)]
      rw [hside]
      unfold wbPost
      rw [if_neg (fun hc => absurd hc.2.2.2.2 (not_le.mpr hR))]
    rw [hxeq]
    exact hR
  · intro h
    exact absurd h (not_lt.mpr (wb_z_tight r rest ghw h1 h2 h3 e hR))

/-- Helper: an entity already inside all wall constraints is a fixed point
of the boundary-resolution pass. -/
theorem wallBounce_noop (r rest ghw : ℚ) (h1 : 0 < r) (h2 : r < ghw)
    (h3 : ghw + r ≤ FIELD_HALF_WIDTH) (e : Ent)
    (hx : |e.position.x| ≤ FIELD_HALF_WIDTH - r)
    (hz : |e.position.z| ≤ FIELD_HALF_LENGTH + GOAL_DEPTH - r)
    (hzx : FIELD_HALF_LENGTH - r < |e.position.z| → |e.position.x| < ghw - r) :
    wallBounce r rest ghw e = e := by
  have hxu := le_abs_self e.position.x
  have hxl := neg_abs_le e.position.x
  have hzu := le_abs_self e.position.z
  have hzl := neg_abs_le e.position.z
  have hside : wbSide r rest ghw e.position e = e := by
    unfold wbSide
    by_cases hp : wbPocket ghw e.position
    · have hzz : FIELD_HALF_LENGTH - r < |e.position.z| := by
        have := hp.1
        simp only [gt_iff_lt] at this
        linarith
      have hxx := hzx hzz
      simp only [if_pos hp]
      rw [if_neg (by push_neg; linarith), if_neg (by push_neg; linarith)]
    · simp only [if_neg hp]
      rw [if_neg (by push_neg; linarith), if_neg (by push_neg; linarith)]
  have hpost : wbPost r rest ghw e.position e = e := by
    unfold wbPost
    rw [if_neg (fun hc => by
      have hzz : FIELD_HALF_LENGTH - r < |e.position.z| := by
        have := hc.1
        simp only [gt_iff_lt] at this
        linarith
      exact absurd hc.2.2.2.2 (not_le.mpr (hzx hzz)))]
  have hbp : wbBackPos r rest ghw e.position e = e := by
    unfold wbBackPos
    rw [if_neg (fun hc => by have := hc.1; linarith)]
  have hbn : wbBackNeg r rest ghw e.position e = e := by
    unfold wbBackNeg
    rw [if_neg (fun hc => by have := hc.1; linarith)]
  have hep : wbEndPos r rest ghw e.position e = e := by
    unfold wbEndPos
    rw [if_neg (fun hc => by
      have hzz : FIELD_HALF_LENGTH - r < |e.position.z| := by have := hc.1; linarith
      exact absurd hc.2 (not_le.mpr (hzx hzz)))]
  have hen : wbEndNeg r rest ghw e.position e = e := by
    unfold wbEndNeg
    rw [if_neg (fun hc => by
      have hzz : FIELD_HALF_LENGTH - r < |e.position.z| := by have := hc.1; linarith
      exact absurd hc.2 (not_le.mpr (hzx hzz)))]
  unfold wallBounce
  rw [hside, hpost, hbp, hbn, hep, hen]

/-- C3: for every input position and velocity, one boundary-resolution pass
leaves the entity with `|x|` at most the field half-width minus its radius
and `|z|` at most the field half-length plus the pocket depth minus its
radius — no entity escapes the play volume extended by the goal pockets. -/
theorem c3_wallBounce_bounds (r rest ghw : ℚ) (h1 : 0 < r) (h2 : r < ghw)
    (h3 : ghw + r ≤ FIELD_HALF_WIDTH) (e : Ent) :
    |(wallBounce r rest ghw e).position.x| ≤ FIELD_HALF_WIDTH - r ∧
    |(wallBounce r rest ghw e).position.z| ≤ FIELD_HALF_LENGTH + GOAL_DEPTH - r :=
  ⟨wb_x_bound r rest ghw h1 h2 h3 e, wb_z_bound r rest ghw h1 h2 h3 e⟩

/-- C3 witness: the ball parameters, the normal goal half-width, and an
entity far outside the play volume. -/
theorem c3_wallBounce_bounds_witness :
    (0 < BALL_RADIUS ∧ BALL_RADIUS < GOAL_HALF_WIDTH ∧
      GOAL_HALF_WIDTH + BALL_RADIUS ≤ FIELD_HALF_WIDTH) ∧
    (|(wallBounce BALL_RADIUS WALL_RESTITUTION_BALL GOAL_HALF_WIDTH
        ⟨⟨100, 1/2, 100⟩, ⟨1, 0, 1⟩⟩).position.x| ≤ FIELD_HALF_WIDTH - BALL_RADIUS ∧
     |(wallBounce BALL_RADIUS WALL_RESTITUTION_BALL GOAL_HALF_WIDTH
        ⟨⟨100, 1/2, 100⟩, ⟨1, 0, 1⟩⟩).position.z| ≤
       FIELD_HALF_LENGTH + GOAL_DEPTH - BALL_RADIUS) := by
  have ha : (0 : ℚ) < BALL_RADIUS := by norm_num [BALL_RADIUS]
  have hb : BALL_RADIUS < GOAL_HALF_WIDTH := by norm_num [BALL_RADIUS, GOAL_HALF_WIDTH]
  have hc : GOAL_HALF_WIDTH + BALL_RADIUS ≤ FIELD_HALF_WIDTH := by
    norm_num [BALL_RADIUS, GOAL_HALF_WIDTH, FIELD_HALF_WIDTH]
  exact ⟨⟨ha, hb, hc⟩,
    c3_wallBounce_bounds BALL_RADIUS WALL_RESTITUTION_BALL GOAL_HALF_WIDTH ha hb hc _⟩

/-- C5: the boundary-resolution pass is idempotent — applying it a second
time to the result of a first application changes neither position nor
velocity. -/
theorem c5_wallBounce_idem (r rest ghw : ℚ) (h1 : 0 < r) (h2 : r < ghw)
    (h3 : ghw + r ≤ FIELD_HALF_WIDTH) (e : Ent) :
    wallBounce r rest ghw (wallBounce r rest ghw e) = wallBounce r rest ghw e :=
  wallBounce_noop r rest ghw h1 h2 h3 (wallBounce r rest ghw e)
    (wb_x_bound r rest ghw h1 h2 h3 e)
    (wb_z_bound r rest ghw h1 h2 h3 e)
    (wb_z_x r rest ghw h1 h2 h3 e)

/-- C5 witness: the player parameters, the golden-goal half-width, and an
entity deep inside the +Z pocket region. -/
theorem c5_wallBounce_idem_witness :
    (0 < MARBLE_RADIUS ∧ MARBLE_RADIUS < GOLDEN_GOAL_HALF_WIDTH ∧
      GOLDEN_GOAL_HALF_WIDTH + MARBLE_RADIUS ≤ FIELD_HALF_WIDTH) ∧
    wallBounce MARBLE_RADIUS WALL_RESTITUTION_PLAYER GOLDEN_GOAL_HALF_WIDTH
      (wallBounce MARBLE_RADIUS WALL_RESTITUTION_PLAYER GOLDEN_GOAL_HALF_WIDTH
        ⟨⟨21/10, 1/2, 117/10⟩, ⟨2, 0, -3⟩⟩) =
    wallBounce MARBLE_RADIUS WALL_RESTITUTION_PLAYER GOLDEN_GOAL_HALF_WIDTH
      ⟨⟨21/10, 1/2, 117/10⟩, ⟨2, 0, -3⟩⟩ := by
  have ha : (0 : ℚ) < MARBLE_RADIUS := by norm_num [MARBLE_RADIUS]
  have hb : MARBLE_RADIUS < GOLDEN_GOAL_HALF_WIDTH := by
    norm_num [MARBLE_RADIUS, GOLDEN_GOAL_HALF_WIDTH]
  have hc : GOLDEN_GOAL_HALF_WIDTH + MARBLE_RADIUS ≤ FIELD_HALF_WIDTH := by
    norm_num [MARBLE_RADIUS, GOLDEN_GOAL_HALF_WIDTH, FIELD_HALF_WIDTH]
  exact ⟨⟨ha, hb, hc⟩,
    c5_wallBounce_idem MARBLE_RADIUS WALL_RESTITUTION_PLAYER GOLDEN_GOAL_HALF_WIDTH ha hb hc _⟩

/-! ## C4 — collision separation and the mass split -/

/-- Squared horizontal center distance between two points. -/
def distSq2 (px pz qx qz : ℚ) : ℚ := (qx - px) * (qx - px) + (qz - pz) * (qz - pz)

/-- Helper algebra: symmetric half-overlap separation lands the pair at
squared distance exactly `m * m` when `d` squares to the squared distance. -/
theorem sep_core (ax az bx bz d m : ℚ) (hdne : d ≠ 0)
    (hs : d * d = (bx - ax) * (bx - ax) + (bz - az) * (bz - az))
    (hne : (bx - ax) * (bx - ax) + (bz - az) * (bz - az) ≠ 0) :
    ((bx + (bx - ax) / d * ((m - d) / 2)) - (ax - (bx - ax) / d * ((m - d) / 2))) *
      ((bx + (bx - ax) / d * ((m - d) / 2)) - (ax - (bx - ax) / d * ((m - d) / 2))) +
    ((bz + (bz - az) / d * ((m - d) / 2)) - (az - (bz - az) / d * ((m - d) / 2))) *
      ((bz + (bz - az) / d * ((m - d) / 2)) - (az - (bz - az) / d * ((m - d) / 2))) = m * m := by
  have hx : (bx + (bx - ax) / d * ((m - d) / 2)) - (ax - (bx - ax) / d * ((m - d) / 2)) =
      (bx - ax) * m / d := by
    field_simp
    ring
  have hz : (bz + (bz - az) / d * ((m - d) / 2)) - (az - (bz - az) / d * ((m - d) / 2)) =
      (bz - az) * m / d := by
    field_simp
    ring
  rw [hx, hz, div_mul_div_comm, div_mul_div_comm, div_add_div_same, hs]
  rw [div_eq_iff hne]
  ring

/-- Helper algebra: the inverse-mass overlap split also lands the pair at
squared distance exactly `m * m`. -/
theorem sep_core2 (ax az bx bz d m mb : ℚ) (hdne : d ≠ 0) (hmb : 1 + mb ≠ 0)
    (hs : d * d = (bx - ax) * (bx - ax) + (bz - az) * (bz - az))
    (hne : (bx - ax) * (bx - ax) + (bz - az) * (bz - az) ≠ 0) :
    ((bx + (bx - ax) / d * ((m - d) * (1 / (1 + mb)))) -
      (ax - (bx - ax) / d * ((m - d) * (mb / (1 + mb))))) *
    ((bx + (bx - ax) / d * ((m - d) * (1 / (1 + mb)))) -
      (ax - (bx - ax) / d * ((m - d) * (mb / (1 + mb))))) +
    ((bz + (bz - az) / d * ((m - d) * (1 / (1 + mb)))) -
      (az - (bz - az) / d * ((m - d) * (mb / (1 + mb))))) *
    ((bz + (bz - az) / d * ((m - d) * (1 / (1 + mb)))) -
      (az - (bz - az) / d * ((m - d) * (mb / (1 + mb))))) = m * m := by
  have hx : (bx + (bx - ax) / d * ((m - d) * (1 / (1 + mb)))) -
      (ax - (bx - ax) / d * ((m - d) * (mb / (1 + mb)))) = (bx - ax) * m / d := by
    field_simp
    ring
  have hz : (bz + (bz - az) / d * ((m - d) * (1 / (1 + mb)))) -
      (az - (bz - az) / d * ((m - d) * (mb / (1 + mb)))) = (bz - az) * m / d := by
    field_simp
    ring
  rw [hx, hz, div_mul_div_comm, div_mul_div_comm, div_add_div_same, hs]
  rw [div_eq_iff hne]
  ring

/-- Helper: an overlapping pair (above the near-zero skip threshold) leaves
`resolveCollision` at squared center distance exactly the squared radius
sum, for any value of the square root satisfying its defining equations. -/
theorem resolveCollision_dist (env : NumEnv) (a b : Ent) (rA rB pf : ℚ)
    (h1 : 1/1000000 ≤ distSq2 a.position.x a.position.z b.position.x b.position.z)
    (h2 : distSq2 a.position.x a.position.z b.position.x b.position.z < (rA + rB) * (rA + rB))
    (hs : env.sqrtQ (distSq2 a.position.x a.position.z b.position.x b.position.z) *
        env.sqrtQ (distSq2 a.position.x a.position.z b.position.x b.position.z) =
      distSq2 a.position.x a.position.z b.position.x b.position.z)
    (hp : 0 < env.sqrtQ (distSq2 a.position.x a.position.z b.position.x b.position.z)) :
    distSq2 (resolveCollision env a b rA rB pf).1.position.x
      (resolveCollision env a b rA rB pf).1.position.z
      (resolveCollision env a b rA rB pf).2.position.x
      (resolveCollision env a b rA rB pf).2.position.z = (rA + rB) * (rA + rB) := by
  simp only [distSq2] at h1 h2 hs hp ⊢
  simp only [resolveCollision]
  rw [if_neg (by push_neg; exact ⟨h2, h1⟩)]
  dsimp only
  set d := env.sqrtQ ((b.position.x - a.position.x) * (b.position.x - a.position.x) +
    (b.position.z - a.position.z) * (b.position.z - a.position.z)) with hd
  have hdne : d ≠ 0 := ne_of_gt hp
  have hne : (b.position.x - a.position.x) * (b.position.x - a.position.x) +
      (b.position.z - a.position.z) * (b.position.z - a.position.z) ≠ 0 := by
    intro hc
    rw [hc] at h1
    norm_num at h1
  exact sep_core a.position.x a.position.z b.position.x b.position.z d (rA + rB)
    hdne hs hne

/-- Helper: a ball-player contact (above the skip threshold) separates the
pair to squared distance exactly the squared radius sum, splits the
positional correction inversely by mass, and splits the velocity impulse so
that the momentum changes of the two bodies cancel by the mass ratio. -/
theorem ballPlayer_props (env : NumEnv) (player : PlayerState) (ball : BallState)
    (h1 : 1/1000000 ≤
      distSq2 player.position.x player.position.z ball.position.x ball.position.z)
    (h2 : distSq2 player.position.x player.position.z ball.position.x ball.position.z <
      (MARBLE_RADIUS + BALL_RADIUS) * (MARBLE_RADIUS + BALL_RADIUS))
    (hs : env.sqrtQ (distSq2 player.position.x player.position.z ball.position.x ball.position.z) *
        env.sqrtQ (distSq2 player.position.x player.position.z ball.position.x ball.position.z) =
      distSq2 player.position.x player.position.z ball.position.x ball.position.z)
    (hp : 0 < env.sqrtQ
      (distSq2 player.position.x player.position.z ball.position.x ball.position.z)) :
    distSq2 (ballPlayerCollide env player ball).1.position.x
      (ballPlayerCollide env player ball).1.position.z
      (ballPlayerCollide env player ball).2.position.x
      (ballPlayerCollide env player ball).2.position.z =
      (MARBLE_RADIUS + BALL_RADIUS) * (MARBLE_RADIUS + BALL_RADIUS) ∧
    ((ballPlayerCollide env player ball).1.position.x - player.position.x =
      -BALL_MASS * ((ballPlayerCollide env player ball).2.position.x - ball.position.x) ∧
     (ballPlayerCollide env player ball).1.position.z - player.position.z =
      -BALL_MASS * ((ballPlayerCollide env player ball).2.position.z - ball.position.z)) ∧
    ((ballPlayerCollide env player ball).1.velocity.x - player.velocity.x =
      -BALL_MASS * ((ballPlayerCollide env player ball).2.velocity.x - ball.velocity.x) ∧
     (ballPlayerCollide env player ball).1.velocity.z - player.velocity.z =
      -BALL_MASS * ((ballPlayerCollide env player ball).2.velocity.z - ball.velocity.z)) ∧
    BALL_MASS < 1 := by
  simp only [distSq2] at h1 h2 hs hp ⊢
  simp only [ballPlayerCollide]
  rw [if_neg (by push_neg; exact ⟨h2, h1⟩)]
  dsimp only
  set d := env.sqrtQ ((ball.position.x - player.position.x) * (ball.position.x - player.position.x) +
    (ball.position.z - player.position.z) * (ball.position.z - player.position.z)) with hd
  have hdne : d ≠ 0 := ne_of_gt hp
  have hne : (ball.position.x - player.position.x) * (ball.position.x - player.position.x) +
      (ball.position.z - player.position.z) * (ball.position.z - player.position.z) ≠ 0 := by
    intro hc
    rw [hc] at h1
    norm_num at h1
  refine ⟨?_, ⟨by ring, by ring⟩, ⟨?_, ?_⟩, by norm_num [BALL_MASS]⟩
  · exact sep_core2 player.position.x player.position.z ball.position.x ball.position.z d
      (MARBLE_RADIUS + BALL_RADIUS) BALL_MASS hdne (by norm_num [BALL_MASS]) hs hne
  · split_ifs <;> ring
  · split_ifs <;> ring

/-- C4: two circular entities that overlap before a collision pass (with
center distance above the skip threshold) end the pass at center distance
exactly the sum of their radii (hence at least the sum minus any epsilon);
and in a ball-player contact both the positional correction and the
velocity impulse are split by the configured mass ratio — the change of the
player (mass 1) is minus `BALL_MASS` times the change of the ball, so the
lighter ball receives the proportionally larger share and the total
momentum change of the pair cancels by that ratio. -/
theorem c4_collision_resolution (env : NumEnv) :
    (∀ (a b : Ent) (rA rB pushForce : ℚ),
      1/1000000 ≤ distSq2 a.position.x a.position.z b.position.x b.position.z →
      distSq2 a.position.x a.position.z b.position.x b.position.z < (rA + rB) * (rA + rB) →
      env.sqrtQ (distSq2 a.position.x a.position.z b.position.x b.position.z) *
          env.sqrtQ (distSq2 a.position.x a.position.z b.position.x b.position.z) =
        distSq2 a.position.x a.position.z b.position.x b.position.z →
      0 < env.sqrtQ (distSq2 a.position.x a.position.z b.position.x b.position.z) →
      distSq2 (resolveCollision env a b rA rB pushForce).1.position.x
        (resolveCollision env a b rA rB pushForce).1.position.z
        (resolveCollision env a b rA rB pushForce).2.position.x
        (resolveCollision env a b rA rB pushForce).2.position.z = (rA + rB) * (rA + rB)) ∧
    (∀ (player : PlayerState) (ball : BallState),
      1/1000000 ≤ distSq2 player.position.x player.position.z ball.position.x ball.position.z →
      distSq2 player.position.x player.position.z ball.position.x ball.position.z <
        (MARBLE_RADIUS + BALL_RADIUS) * (MARBLE_RADIUS + BALL_RADIUS) →
      env.sqrtQ (distSq2 player.position.x player.position.z ball.position.x ball.position.z) *
          env.sqrtQ (distSq2 player.position.x player.position.z ball.position.x ball.position.z) =
        distSq2 player.position.x player.position.z ball.position.x ball.position.z →
      0 < env.sqrtQ
        (distSq2 player.position.x player.position.z ball.position.x ball.position.z) →
      distSq2 (ballPlayerCollide env player ball).1.position.x
        (ballPlayerCollide env player ball).1.position.z
        (ballPlayerCollide env player ball).2.position.x
        (ballPlayerCollide env player ball).2.position.z =
        (MARBLE_RADIUS + BALL_RADIUS) * (MARBLE_RADIUS + BALL_RADIUS) ∧
      ((ballPlayerCollide env player ball).1.position.x - player.position.x =
        -BALL_MASS * ((ballPlayerCollide env player ball).2.position.x - ball.position.x) ∧
       (ballPlayerCollide env player ball).1.position.z - player.position.z =
        -BALL_MASS * ((ballPlayerCollide env player ball).2.position.z - ball.position.z)) ∧
      ((ballPlayerCollide env player ball).1.velocity.x - player.velocity.x =
        -BALL_MASS * ((ballPlayerCollide env player ball).2.velocity.x - ball.velocity.x) ∧
       (ballPlayerCollide env player ball).1.velocity.z - player.velocity.z =
        -BALL_MASS * ((ballPlayerCollide env player ball).2.velocity.z - ball.velocity.z)) ∧
      BALL_MASS < 1) :=
  ⟨fun a b rA rB pf h1 h2 hs hp => resolveCollision_dist env a b rA rB pf h1 h2 hs hp,
   fun player ball h1 h2 hs hp => ballPlayer_props env player ball h1 h2 hs hp⟩

/-- Numeric environment whose square root answers `3/5` (correct for the
squared distance `9/25` of the witness configurations). -/
def c4env : NumEnv := ⟨fun _ => 3/5, fun _ _ => 1⟩

/-- Marble at the origin moving toward a second marble `0.6` away. -/
def c4a : Ent := ⟨⟨0, 1/2, 0⟩, ⟨1, 0, 0⟩⟩

/-- Second marble of the witness pair. -/
def c4b : Ent := ⟨⟨3/5, 1/2, 0⟩, ⟨0, 0, 0⟩⟩

/-- Player at the origin moving toward the ball. -/
def c4player : PlayerState := ⟨1, 1, ⟨0, 1/2, 0⟩, ⟨1, 0, 0⟩⟩

/-- Ball `0.6` from the player, inside the contact distance `0.8`. -/
def c4ball : BallState := ⟨⟨3/5, 1/2, 0⟩, ⟨0, 0, 0⟩, none⟩

/-- C4 witness: both overlapping witness pairs satisfy the threshold and
square-root hypotheses, the player pair separates to the radius sum, and
the ball-player impulse satisfies the mass-ratio relation. -/
theorem c4_collision_resolution_witness :
    (1/1000000 ≤ distSq2 c4a.position.x c4a.position.z c4b.position.x c4b.position.z) ∧
    (distSq2 c4a.position.x c4a.position.z c4b.position.x c4b.position.z <
      (MARBLE_RADIUS + MARBLE_RADIUS) * (MARBLE_RADIUS + MARBLE_RADIUS)) ∧
    distSq2 (resolveCollision c4env c4a c4b MARBLE_RADIUS MARBLE_RADIUS PUSH_FORCE).1.position.x
      (resolveCollision c4env c4a c4b MARBLE_RADIUS MARBLE_RADIUS PUSH_FORCE).1.position.z
      (resolveCollision c4env c4a c4b MARBLE_RADIUS MARBLE_RADIUS PUSH_FORCE).2.position.x
      (resolveCollision c4env c4a c4b MARBLE_RADIUS MARBLE_RADIUS PUSH_FORCE).2.position.z =
      (MARBLE_RADIUS + MARBLE_RADIUS) * (MARBLE_RADIUS + MARBLE_RADIUS) ∧
    (1/1000000 ≤
      distSq2 c4player.position.x c4player.position.z c4ball.position.x c4ball.position.z) ∧
    (distSq2 c4player.position.x c4player.position.z c4ball.position.x c4ball.position.z <
      (MARBLE_RADIUS + BALL_RADIUS) * (MARBLE_RADIUS + BALL_RADIUS)) ∧
    ((ballPlayerCollide c4env c4player c4ball).1.velocity.x - c4player.velocity.x =
      -BALL_MASS * ((ballPlayerCollide c4env c4player c4ball).2.velocity.x -
        c4ball.velocity.x)) := by
  have h := c4_collision_resolution c4env
  have h1a : 1/1000000 ≤ distSq2 c4a.position.x c4a.position.z c4b.position.x c4b.position.z := by
    norm_num [distSq2, c4a, c4b]
  have h2a : distSq2 c4a.position.x c4a.position.z c4b.position.x c4b.position.z <
      (MARBLE_RADIUS + MARBLE_RADIUS) * (MARBLE_RADIUS + MARBLE_RADIUS) := by
    norm_num [distSq2, c4a, c4b, MARBLE_RADIUS]
  have hsa : c4env.sqrtQ (distSq2 c4a.position.x c4a.position.z c4b.position.x c4b.position.z) *
      c4env.sqrtQ (distSq2 c4a.position.x c4a.position.z c4b.position.x c4b.position.z) =
      distSq2 c4a.position.x c4a.position.z c4b.position.x c4b.position.z := by
    norm_num [distSq2, c4a, c4b, c4env]
  have hpa : 0 < c4env.sqrtQ
      (distSq2 c4a.position.x c4a.position.z c4b.position.x c4b.position.z) := by
    norm_num [c4env]
  have h1b : 1/1000000 ≤
      distSq2 c4player.position.x c4player.position.z c4ball.position.x c4ball.position.z := by
    norm_num [distSq2, c4player, c4ball]
  have h2b : distSq2 c4player.position.x c4player.position.z c4ball.position.x c4ball.position.z <
      (MARBLE_RADIUS + BALL_RADIUS) * (MARBLE_RADIUS + BALL_RADIUS) := by
    norm_num [distSq2, c4player, c4ball, MARBLE_RADIUS, BALL_RADIUS]
  have hsb : c4env.sqrtQ
      (distSq2 c4player.position.x c4player.position.z c4ball.position.x c4ball.position.z) *
      c4env.sqrtQ
        (distSq2 c4player.position.x c4player.position.z c4ball.position.x c4ball.position.z) =
      distSq2 c4player.position.x c4player.position.z c4ball.position.x c4ball.position.z := by
    norm_num [distSq2, c4player, c4ball, c4env]
  have hpb : 0 < c4env.sqrtQ
      (distSq2 c4player.position.x c4player.position.z c4ball.position.x c4ball.position.z) := by
    norm_num [c4env]
  exact ⟨h1a, h2a, h.1 c4a c4b MARBLE_RADIUS MARBLE_RADIUS PUSH_FORCE h1a h2a hsa hpa,
    h1b, h2b, (h.2 c4player c4ball h1b h2b hsb hpb).2.2.1.1⟩

/-! ## Score bookkeeping of a tick (for C9 and C10) -/

/-- Helper: goal detection either changes nothing and emits nothing, or
enters `goalScored`, bumps exactly one score by one, and emits exactly one
goal event. -/
theorem checkGoal_cases (s : GameRoomState) (ghw : ℚ) (now : ℤ) :
    ((checkGoal s ghw now).1 = s ∧ (checkGoal s ghw now).2 = []) ∨
    ((checkGoal s ghw now).1.phase = GamePhase.goalScored ∧
     (checkGoal s ghw now).1.score1 + (checkGoal s ghw now).1.score2 =
       s.score1 + s.score2 + 1 ∧
     s.score1 ≤ (checkGoal s ghw now).1.score1 ∧
     (checkGoal s ghw now).1.score1 ≤ s.score1 + 1 ∧
     s.score2 ≤ (checkGoal s ghw now).1.score2 ∧
     (checkGoal s ghw now).1.score2 ≤ s.score2 + 1 ∧
     countGoals (checkGoal s ghw now).2 = 1) := by
  by_cases h1 : |s.ball.position.x| ≥ ghw
  · left
    simp [checkGoal, h1]
  · by_cases h2 : s.ball.position.z > FIELD_HALF_LENGTH + BALL_RADIUS
    · right
      simp only [checkGoal, if_neg h1, if_pos h2, Int.reduceEq, reduceIte]
      refine ⟨by trivial, by omega, by omega, by omega, by omega, by omega, by trivial⟩
    · by_cases h3 : s.ball.position.z < -(FIELD_HALF_LENGTH + BALL_RADIUS)
      · right
        simp only [checkGoal, if_neg h1, if_neg h2, if_pos h3, Int.reduceEq, reduceIte]
        refine ⟨by trivial, by omega, by omega, by omega, by omega, by omega, by trivial⟩
      · left
        simp only [checkGoal, if_neg h1, if_neg h2, if_neg h3, Int.reduceEq, reduceIte]
        exact ⟨by trivial, by trivial⟩

/-- Helper: the phase machine never touches the scores, emits no goal
event, and moves the phase only along the transitions of the source. -/
theorem phaseTick_cases (s : GameRoomState) (now dtMs : ℤ) :
    (phaseTick s now dtMs).1.score1 = s.score1 ∧
    (phaseTick s now dtMs).1.score2 = s.score2 ∧
    countGoals (phaseTick s now dtMs).2 = 0 ∧
    ((phaseTick s now dtMs).1.phase = s.phase ∨
     (s.phase = GamePhase.countdown ∧ (phaseTick s now dtMs).1.phase = GamePhase.playing) ∨
     (s.phase = GamePhase.goalScored ∧ (phaseTick s now dtMs).1.phase = GamePhase.finished) ∨
     (s.phase = GamePhase.goalScored ∧ (phaseTick s now dtMs).1.phase = GamePhase.playing ∧
       s.score1 < GOALS_TO_WIN ∧ s.score2 < GOALS_TO_WIN) ∨
     (s.phase = GamePhase.playing ∧
       ((phaseTick s now dtMs).1.phase = GamePhase.goldenGoal ∨
        (phaseTick s now dtMs).1.phase = GamePhase.finished))) := by
  cases hph : s.phase with
  | countdown =>
    simp only [phaseTick, hph]
    split_ifs with hc
    · exact ⟨by trivial, by trivial, by trivial, Or.inr (Or.inl ⟨by trivial, by trivial⟩)⟩
    · exact ⟨by trivial, by trivial, by trivial, Or.inl (by trivial)⟩
  | goalScored =>
    simp only [phaseTick, hph]
    split_ifs with hc hw hwin
    · exact ⟨by trivial, by trivial, by trivial,
        Or.inr (Or.inr (Or.inl ⟨by trivial, by trivial⟩))⟩
    · exact ⟨by trivial, by trivial, by trivial,
        Or.inr (Or.inr (Or.inl ⟨by trivial, by trivial⟩))⟩
    · push_neg at hw
      exact ⟨by trivial, by trivial, by trivial,
        Or.inr (Or.inr (Or.inr (Or.inl ⟨by trivial, by trivial, hw.1, hw.2⟩)))⟩
    · exact ⟨by trivial, by trivial, by trivial, Or.inl (by trivial)⟩
  | playing =>
    simp only [phaseTick, hph]
    split_ifs with hc hsc hwin
    · exact ⟨by trivial, by trivial, by trivial,
        Or.inr (Or.inr (Or.inr (Or.inr ⟨by trivial, Or.inl (by trivial)⟩)))⟩
    · exact ⟨by trivial, by trivial, by trivial,
        Or.inr (Or.inr (Or.inr (Or.inr ⟨by trivial, Or.inr (by trivial)⟩)))⟩
    · exact ⟨by trivial, by trivial, by trivial,
        Or.inr (Or.inr (Or.inr (Or.inr ⟨by trivial, Or.inr (by trivial)⟩)))⟩
    · exact ⟨by trivial, by trivial, by trivial, Or.inl (by trivial)⟩
  | waiting =>
    simp only [phaseTick, hph]
    exact ⟨by trivial, by trivial, by trivial, Or.inl (by trivial)⟩
  | goldenGoal =>
    simp only [phaseTick, hph]
    exact ⟨by trivial, by trivial, by trivial, Or.inl (by trivial)⟩
  | finished =>
    simp only [phaseTick, hph]
    exact ⟨by trivial, by trivial, by trivial, Or.inl (by trivial)⟩

/-- Helper: the physics tick either leaves scores, phase and events alone
(no players, or solo practice, or no goal), or behaves exactly as goal
detection applied to a state carrying the same scores and phase. -/
theorem physicsTick_shape (env : NumEnv) (sys : RoomSys) (dt : ℚ) (now : ℤ) :
    ∃ s5 : GameRoomState, ∃ ghw : ℚ,
      s5.score1 = sys.state.score1 ∧ s5.score2 = sys.state.score2 ∧
      s5.phase = sys.state.phase ∧
      (((physicsTick env sys dt now).1.state.score1 = s5.score1 ∧
        (physicsTick env sys dt now).1.state.score2 = s5.score2 ∧
        (physicsTick env sys dt now).1.state.phase = s5.phase ∧
        (physicsTick env sys dt now).2 = []) ∨
       (sys.state.phase ≠ GamePhase.waiting ∧
        (physicsTick env sys dt now).1.state = (checkGoal s5 ghw now).1 ∧
        (physicsTick env sys dt now).2 = (checkGoal s5 ghw now).2)) := by
  by_cases hemp : sys.state.players.length = 0
  · refine ⟨sys.state, GOAL_HALF_WIDTH, rfl, rfl, rfl, Or.inl ?_⟩
    simp [physicsTick, hemp]
  · by_cases hw : sys.state.phase ≠ GamePhase.waiting
    · simp only [physicsTick, if_neg hemp]
      rw [if_pos hw]
      exact ⟨(physicsKinematics env sys dt now).1, physicsGoalHW sys.state,
        rfl, rfl, rfl, Or.inr ⟨hw, rfl, rfl⟩⟩
    · simp only [physicsTick, if_neg hemp]
      rw [if_neg hw]
      exact ⟨sys.state, GOAL_HALF_WIDTH, rfl, rfl, rfl, Or.inl ⟨rfl, rfl, rfl, rfl⟩⟩

/-! ## C9 — score monotonicity per tick -/

/-- C9: across one iteration of the simulation loop (phase machine plus
physics when active), each score is individually non-decreasing and the
score sum grows by exactly the number of goal events detected during the
tick — one per detected goal, zero otherwise. -/
theorem c9_tick_scores (env : NumEnv) (sys : RoomSys) (now dtMs : ℤ) :
    sys.state.score1 ≤ (roomTick env sys now dtMs).1.state.score1 ∧
    sys.state.score2 ≤ (roomTick env sys now dtMs).1.state.score2 ∧
    (roomTick env sys now dtMs).1.state.score1 + (roomTick env sys now dtMs).1.state.score2 =
      sys.state.score1 + sys.state.score2 +
        (countGoals (roomTick env sys now dtMs).2 : ℤ) := by
  obtain ⟨hp1, hp2, hpc, _⟩ := phaseTick_cases sys.state now dtMs
  simp only [roomTick]
  by_cases hact : (phaseTick sys.state now dtMs).1.phase = GamePhase.waiting ∨
      (phaseTick sys.state now dtMs).1.phase = GamePhase.playing ∨
      (phaseTick sys.state now dtMs).1.phase = GamePhase.goldenGoal
  · rw [if_pos hact]
    obtain ⟨s5, ghw, hs1, hs2, _, hcase⟩ :=
      physicsTick_shape env ⟨(phaseTick sys.state now dtMs).1, sys.conns⟩
        ((dtMs : ℚ) / (SERVER_TICK_INTERVAL : ℚ)) now
    dsimp only at hs1 hs2 hcase ⊢
    rw [countGoals, List.countP_append, ← countGoals, ← countGoals]
    rcases hcase with ⟨hq1, hq2, _, hev⟩ | ⟨_, hq, hev⟩
    · rw [hq1, hq2, hev, hs1, hs2, hp1, hp2, hpc]
      norm_num [countGoals]
    · rcases checkGoal_cases s5 ghw now with ⟨hcg, hcgev⟩ | hcg
      · rw [hq, hev, hcg, hcgev, hs1, hs2, hp1, hp2, hpc]
        norm_num [countGoals]
      · obtain ⟨_, hsum, hlo1, _, hlo2, _, hcnt⟩ := hcg
        rw [hq, hev]
        rw [hs1, hp1] at hlo1 hsum
        rw [hs2, hp2] at hlo2 hsum
        refine ⟨by omega, by omega, ?_⟩
        rw [hcnt, hpc]
        omega
  · rw [if_neg hact]
    dsimp only
    rw [hp1, hp2, hpc]
    omega

/-! ## C10 — the win threshold bounds every reachable score -/

/-- Phases in which goal detection may still run later in the match. -/
def ActivePhase (p : GamePhase) : Prop :=
  p = GamePhase.waiting ∨ p = GamePhase.countdown ∨ p = GamePhase.playing ∨
    p = GamePhase.goldenGoal

/-- Inductive invariant: scores never exceed the win threshold, and while
the phase can still reach goal detection both scores are strictly below it. -/
def ScoreInv (s : GameRoomState) : Prop :=
  s.score1 ≤ GOALS_TO_WIN ∧ s.score2 ≤ GOALS_TO_WIN ∧
    (ActivePhase s.phase → s.score1 < GOALS_TO_WIN ∧ s.score2 < GOALS_TO_WIN)

/-- Helper: the phase machine preserves the score invariant. -/
theorem phaseTick_inv (s : GameRoomState) (now dtMs : ℤ) (h : ScoreInv s) :
    ScoreInv (phaseTick s now dtMs).1 := by
  obtain ⟨h1, h2, hact⟩ := h
  obtain ⟨hp1, hp2, _, hcase⟩ := phaseTick_cases s now dtMs
  rcases hcase with hsame | ⟨hc, hp⟩ | ⟨hc, hp⟩ | ⟨hc, hp, hlt1, hlt2⟩ | ⟨hc, hp⟩
  · exact ⟨by omega, by omega, fun ha => by
      rw [hsame] at ha
      have := hact ha
      omega⟩
  · refine ⟨by omega, by omega, fun _ => ?_⟩
    have := hact (by rw [hc]; right; left; rfl)
    omega
  · refine ⟨by omega, by omega, fun ha => ?_⟩
    rw [hp] at ha
    rcases ha with h | h | h | h <;> simp_all
  · exact ⟨by omega, by omega, fun _ => by omega⟩
  · refine ⟨by omega, by omega, fun ha => ?_⟩
    have := hact (by rw [hc]; right; right; left; rfl)
    rcases hp with hp | hp <;> omega

/-- Helper: the physics tick preserves the score invariant whenever it runs
in an active phase. -/
theorem physicsTick_inv (env : NumEnv) (sys : RoomSys) (dt : ℚ) (now : ℤ)
    (hph : ActivePhase sys.state.phase) (h : ScoreInv sys.state) :
    ScoreInv (physicsTick env sys dt now).1.state := by
  obtain ⟨h1, h2, hact⟩ := h
  obtain ⟨s5, ghw, hs1, hs2, hs3, hcase⟩ := physicsTick_shape env sys dt now
  rcases hcase with ⟨hq1, hq2, hq3, _⟩ | ⟨hw, hq, _⟩
  · refine ⟨by omega, by omega, fun ha => ?_⟩
    rw [hq3, hs3] at ha
    have := hact ha
    omega
  · have hstrict : sys.state.score1 < GOALS_TO_WIN ∧ sys.state.score2 < GOALS_TO_WIN := by
      apply hact
      rcases hph with hp | hp | hp | hp
      · exact absurd hp hw
      all_goals unfold ActivePhase
      · right; left; exact hp
      · right; right; left; exact hp
      · right; right; right; exact hp
    rcases checkGoal_cases s5 ghw now with ⟨hcg, _⟩ | hcg
    · rw [hq, hcg]
      refine ⟨by omega, by omega, fun ha => ?_⟩
      rw [hs3] at ha
      have := hact ha
      omega
    · obtain ⟨hgoal, _, hlo1, hhi1, hlo2, hhi2, _⟩ := hcg
      rw [hq]
      rw [hs1] at hlo1 hhi1
      rw [hs2] at hlo2 hhi2
      refine ⟨by omega, by omega, fun ha => ?_⟩
      rw [hgoal] at ha
      rcases ha with h | h | h | h <;> simp_all

/-- Helper: one loop iteration preserves the score invariant. -/
theorem roomTick_inv (env : NumEnv) (sys : RoomSys) (now dtMs : ℤ)
    (h : ScoreInv sys.state) : ScoreInv (roomTick env sys now dtMs).1.state := by
  have hpt := phaseTick_inv sys.state now dtMs h
  simp only [roomTick]
  by_cases hact : (phaseTick sys.state now dtMs).1.phase = GamePhase.waiting ∨
      (phaseTick sys.state now dtMs).1.phase = GamePhase.playing ∨
      (phaseTick sys.state now dtMs).1.phase = GamePhase.goldenGoal
  · rw [if_pos hact]
    dsimp only
    apply physicsTick_inv
    · rcases hact with hp | hp | hp
      · exact Or.inl hp
      · exact Or.inr (Or.inr (Or.inl hp))
      · exact Or.inr (Or.inr (Or.inr hp))
    · exact hpt
  · rw [if_neg hact]
    exact hpt

/-- Helper: connection admission preserves the score invariant. -/
theorem onConnect_inv (sys : RoomSys) (pid : ℕ) (now : ℤ) (h : ScoreInv sys.state) :
    ScoreInv (onConnect sys pid now).1.state := by
  obtain ⟨h1, h2, hact⟩ := h
  simp only [onConnect]
  split_ifs <;>
    first
      | exact ⟨h1, h2, hact⟩
      | (refine ⟨?_, ?_, fun _ => ⟨?_, ?_⟩⟩ <;> norm_num [GOALS_TO_WIN, resetForKickoff])

/-- Helper: disconnection preserves the score invariant. -/
theorem onDisconnect_inv (sys : RoomSys) (pid : ℕ) (h : ScoreInv sys.state) :
    ScoreInv (onDisconnect sys pid).1.state := by
  obtain ⟨h1, h2, hact⟩ := h
  simp only [onDisconnect]
  split_ifs with hfound hforfeit
  · exact ⟨h1, h2, hact⟩
  · refine ⟨h1, h2, fun ha => ?_⟩
    rcases ha with h | h | h | h <;> simp_all
  · exact ⟨h1, h2, hact⟩

/-- Helper: every external event preserves the score invariant. -/
theorem applyEvent_inv (sys : RoomSys) (ev : SysEvent) (h : ScoreInv sys.state) :
    ScoreInv (applyEvent sys ev).state := by
  cases ev with
  | tickE env now dtMs => exact roomTick_inv env sys now dtMs h
  | connectE pid now => exact onConnect_inv sys pid now h
  | disconnectE pid => exact onDisconnect_inv sys pid h
  | inputE i inp now => exact h

/-- Helper: the score invariant holds along any event trace. -/
theorem foldl_inv (evs : List SysEvent) (sys : RoomSys) (h : ScoreInv sys.state) :
    ScoreInv ((evs.foldl applyEvent sys).state) := by
  induction evs generalizing sys with
  | nil => exact h
  | cons e t ih => exact ih (applyEvent sys e) (applyEvent_inv sys e h)

/-- C10: in every reachable room state neither score exceeds the win
threshold `GOALS_TO_WIN`: a goal puts the phase in `goalScored`, where the
tick loop does not run goal detection, and the `goalScored` exit finishes
the match as soon as either score reaches the threshold, so no score is
ever incremented past it. -/
theorem c10_score_cap (sys : RoomSys) (h : Reachable sys) :
    sys.state.score1 ≤ GOALS_TO_WIN ∧ sys.state.score2 ≤ GOALS_TO_WIN := by
  obtain ⟨evs, rfl⟩ := h
  have hinit : ScoreInv initialSys.state := by
    refine ⟨?_, ?_, fun _ => ⟨?_, ?_⟩⟩ <;> norm_num [initialSys, GOALS_TO_WIN]
  have hfin := foldl_inv evs initialSys hinit
  exact ⟨hfin.1, hfin.2.1⟩

/-- C10 witness at the initial state, reachable by the empty trace. -/
theorem c10_score_cap_witness :
    initialSys.state.score1 ≤ GOALS_TO_WIN ∧ initialSys.state.score2 ≤ GOALS_TO_WIN :=
  c10_score_cap initialSys ⟨[], rfl⟩

end MarbleSoccer
